import Mathlib

/-!
Verification development for the QuickPlot repository.

This file gives a shallow embedding, over the exact reals, of the two
components the claims are about:

* `src/utils/add_curly_brace.py` — the annotated curly-brace geometry builder
  (signed-log axis transform, pixel scaling, arc-center derivation, arc
  sampling, back-conversion, label rotation/padding);
* `src/utils/add_marker_line.py` — the marker-line helper and its
  `_align_params` / `_set_mode` auxiliaries.

Python floats are modelled as real numbers; `np.log`, `np.exp`, `np.cos`,
`np.sin`, `np.arctan2`, `np.hypot` become their exact counterparts.  All
numbers flowing through `add_curly_brace` are numpy `float64` scalars or
arrays (`_get_ax_size` multiplies `Bbox` widths by `fig.dpi`, `get_xlim`
returns `float64` values, `np.log` preserves the type), and numpy division
by zero does not raise: it produces `inf`/`nan` with a `RuntimeWarning`.
So the brace builder has no exception path at all; its divisions are kept
as Lean's total division (zero denominators yield `0` in the model where
the code yields `inf`/`nan` — no claim depends on the values produced
there, only on the absence of an exception).  In `add_marker_line`,
however, `i % 0` on Python ints (in `_align_params`) genuinely raises
`ZeroDivisionError`, and `np.interp` raises `ValueError` on empty sample
arrays; those paths are modelled with `Except`/`Option` error values.
-/

namespace QuickPlot

/-- Python exception classes that the modelled code can raise. -/
inductive PyErr where
  | zeroDivisionError : PyErr
  | valueError : PyErr
deriving DecidableEq, Repr

/-- Signed-log forward transform, as inlined (per branch) in
`add_curly_brace.py` lines 144-232: `ln v` if `v > 0`, `-ln |v|` if `v < 0`,
`0` if `v = 0`. -/
noncomputable def sgnLog (v : ℝ) : ℝ :=
  if 0 < v then Real.log v
  else if v < 0 then -Real.log |v|
  else 0

/-- Signed-exp output conversion, as inlined in `add_curly_brace.py` lines
302-425: `exp w` if `w > 0`, `-exp |w|` if `w < 0`, `0` if `w = 0`. -/
noncomputable def sgnExp (w : ℝ) : ℝ :=
  if 0 < w then Real.exp w
  else if w < 0 then -Real.exp |w|
  else 0

/-- `np.arctan2 y x` (C-standard `atan2`), with `arctan2 0 0 = 0`. -/
noncomputable def arctan2 (y x : ℝ) : ℝ :=
  if 0 < x then Real.arctan (y / x)
  else if x < 0 then
    (if 0 ≤ y then Real.arctan (y / x) + Real.pi
     else Real.arctan (y / x) - Real.pi)
  else
    (if 0 < y then Real.pi / 2
     else if y < 0 then -(Real.pi / 2)
     else 0)

/-- Inputs of `add_curly_brace`: the axes' pixel size (`_get_ax_size`),
the data limits (`ax.get_xlim()` / `ax.get_ylim()`), the per-axis scale
flags (`"log" in ax.get_xaxis().get_scale()`), the two endpoints, the
curvature `k_r`, the `bool_auto` switch, and the text parameters. -/
structure Cfg where
  axWidth : ℝ
  axHeight : ℝ
  xlim0 : ℝ
  xlim1 : ℝ
  ylim0 : ℝ
  ylim1 : ℝ
  xLog : Bool
  yLog : Bool
  p1x : ℝ
  p1y : ℝ
  p2x : ℝ
  p2y : ℝ
  kR : ℝ
  boolAuto : Bool
  strText : String
  intLineNum : ℕ
  textOffset : ℝ × ℝ

/-- Per-axis forward transform of an x value (lines 144-187). -/
noncomputable def txv (c : Cfg) (v : ℝ) : ℝ := if c.xLog then sgnLog v else v

/-- Per-axis forward transform of a y value (lines 189-232). -/
noncomputable def tyv (c : Cfg) (v : ℝ) : ℝ := if c.yLog then sgnLog v else v

/-- Transformed `ax_xlim[0]`. -/
noncomputable def xlim0T (c : Cfg) : ℝ := txv c c.xlim0

/-- Transformed `ax_xlim[1]`. -/
noncomputable def xlim1T (c : Cfg) : ℝ := txv c c.xlim1

/-- Transformed `ax_ylim[0]`. -/
noncomputable def ylim0T (c : Cfg) : ℝ := tyv c c.ylim0

/-- Transformed `ax_ylim[1]`. -/
noncomputable def ylim1T (c : Cfg) : ℝ := tyv c c.ylim1

/-- Pixel/length ratio for x (line 235), after the `bool_auto` override of
lines 239-244.  The operands are numpy `float64` scalars, so a degenerate
extent makes this division produce `inf` with a `RuntimeWarning` — it does
not raise; the model uses Lean's total division (`0` for a zero
denominator), on which no claim depends. -/
noncomputable def xscale (c : Cfg) : ℝ :=
  if c.boolAuto then c.axWidth / |xlim1T c - xlim0T c| else 1

/-- Pixel/length ratio for y (line 236), after the `bool_auto` override. -/
noncomputable def yscale (c : Cfg) : ℝ :=
  if c.boolAuto then c.axHeight / |ylim1T c - ylim0T c| else 1

/-- `pt1[0]` in pixel units (line 247). -/
noncomputable def pt1x (c : Cfg) : ℝ := (txv c c.p1x - xlim0T c) * xscale c

/-- `pt1[1]` in pixel units (line 248). -/
noncomputable def pt1y (c : Cfg) : ℝ := (tyv c c.p1y - ylim0T c) * yscale c

/-- `pt2[0]` in pixel units (line 249). -/
noncomputable def pt2x (c : Cfg) : ℝ := (txv c c.p2x - xlim0T c) * xscale c

/-- `pt2[1]` in pixel units (line 250). -/
noncomputable def pt2y (c : Cfg) : ℝ := (tyv c c.p2y - ylim0T c) * yscale c

/-- `theta = np.arctan2(pt2[1] - pt1[1], pt2[0] - pt1[0])` (line 253). -/
noncomputable def theta (c : Cfg) : ℝ := arctan2 (pt2y c - pt1y c) (pt2x c - pt1x c)

/-- `r = np.hypot(pt2[0] - pt1[0], pt2[1] - pt1[1]) * k_r` (line 256). -/
noncomputable def rr (c : Cfg) : ℝ :=
  Real.sqrt ((pt2x c - pt1x c) ^ 2 + (pt2y c - pt1y c) ^ 2) * c.kR

/-- arc1 centre x (line 259). -/
noncomputable def x11 (c : Cfg) : ℝ := pt1x c + rr c * Real.cos (theta c)

/-- arc1 centre y (line 260). -/
noncomputable def y11 (c : Cfg) : ℝ := pt1y c + rr c * Real.sin (theta c)

/-- arc2 centre x (line 263). -/
noncomputable def x22 (c : Cfg) : ℝ :=
  (pt2x c + pt1x c) / 2 - 2 * rr c * Real.sin (theta c) - rr c * Real.cos (theta c)

/-- arc2 centre y (line 264). -/
noncomputable def y22 (c : Cfg) : ℝ :=
  (pt2y c + pt1y c) / 2 + 2 * rr c * Real.cos (theta c) - rr c * Real.sin (theta c)

/-- arc3 centre x (line 267). -/
noncomputable def x33 (c : Cfg) : ℝ :=
  (pt2x c + pt1x c) / 2 - 2 * rr c * Real.sin (theta c) + rr c * Real.cos (theta c)

/-- arc3 centre y (line 268). -/
noncomputable def y33 (c : Cfg) : ℝ :=
  (pt2y c + pt1y c) / 2 + 2 * rr c * Real.cos (theta c) + rr c * Real.sin (theta c)

/-- arc4 centre x (line 271). -/
noncomputable def x44 (c : Cfg) : ℝ := pt2x c - rr c * Real.cos (theta c)

/-- arc4 centre y (line 272). -/
noncomputable def y44 (c : Cfg) : ℝ := pt2y c - rr c * Real.sin (theta c)

/-- `q = np.linspace(theta, theta + pi/2, 50)` (line 274). -/
noncomputable def qq (c : Cfg) (i : Fin 50) : ℝ :=
  theta c + Real.pi / 2 * (i.val : ℝ) / 49

/-- `t = q[::-1]` (line 276). -/
noncomputable def tt (c : Cfg) (i : Fin 50) : ℝ :=
  qq c ⟨49 - i.val, by omega⟩

/-- arc1 x samples in pixel space (line 279). -/
noncomputable def arc1xPix (c : Cfg) (i : Fin 50) : ℝ :=
  rr c * Real.cos (tt c i + Real.pi / 2) + x11 c

/-- arc1 y samples in pixel space (line 280). -/
noncomputable def arc1yPix (c : Cfg) (i : Fin 50) : ℝ :=
  rr c * Real.sin (tt c i + Real.pi / 2) + y11 c

/-- arc2 x samples in pixel space (line 282). -/
noncomputable def arc2xPix (c : Cfg) (i : Fin 50) : ℝ :=
  rr c * Real.cos (qq c i - Real.pi / 2) + x22 c

/-- arc2 y samples in pixel space (line 283). -/
noncomputable def arc2yPix (c : Cfg) (i : Fin 50) : ℝ :=
  rr c * Real.sin (qq c i - Real.pi / 2) + y22 c

/-- arc3 x samples in pixel space (line 285). -/
noncomputable def arc3xPix (c : Cfg) (i : Fin 50) : ℝ :=
  rr c * Real.cos (qq c i + Real.pi) + x33 c

/-- arc3 y samples in pixel space (line 286). -/
noncomputable def arc3yPix (c : Cfg) (i : Fin 50) : ℝ :=
  rr c * Real.sin (qq c i + Real.pi) + y33 c

/-- arc4 x samples in pixel space (line 288). -/
noncomputable def arc4xPix (c : Cfg) (i : Fin 50) : ℝ :=
  rr c * Real.cos (tt c i) + x44 c

/-- arc4 y samples in pixel space (line 289). -/
noncomputable def arc4yPix (c : Cfg) (i : Fin 50) : ℝ :=
  rr c * Real.sin (tt c i) + y44 c

/-- Back-conversion of an x pixel value to (transformed) axis coordinates
(lines 292-295), followed by the inverse signed-log map when the x axis is
logarithmic (lines 302-359). -/
noncomputable def outX (c : Cfg) (v : ℝ) : ℝ :=
  if c.xLog then sgnExp (v / xscale c + xlim0T c) else v / xscale c + xlim0T c

/-- Back-conversion of a y pixel value (lines 297-300 and 365-421). -/
noncomputable def outY (c : Cfg) (v : ℝ) : ℝ :=
  if c.yLog then sgnExp (v / yscale c + ylim0T c) else v / yscale c + ylim0T c

/-- Final arc1 x coordinates, in original data units. -/
noncomputable def arc1x (c : Cfg) (i : Fin 50) : ℝ := outX c (arc1xPix c i)

/-- Final arc1 y coordinates. -/
noncomputable def arc1y (c : Cfg) (i : Fin 50) : ℝ := outY c (arc1yPix c i)

/-- Final arc2 x coordinates. -/
noncomputable def arc2x (c : Cfg) (i : Fin 50) : ℝ := outX c (arc2xPix c i)

/-- Final arc2 y coordinates. -/
noncomputable def arc2y (c : Cfg) (i : Fin 50) : ℝ := outY c (arc2yPix c i)

/-- Final arc3 x coordinates. -/
noncomputable def arc3x (c : Cfg) (i : Fin 50) : ℝ := outX c (arc3xPix c i)

/-- Final arc3 y coordinates. -/
noncomputable def arc3y (c : Cfg) (i : Fin 50) : ℝ := outY c (arc3yPix c i)

/-- Final arc4 x coordinates. -/
noncomputable def arc4x (c : Cfg) (i : Fin 50) : ℝ := outX c (arc4xPix c i)

/-- Final arc4 y coordinates. -/
noncomputable def arc4y (c : Cfg) (i : Fin 50) : ℝ := outY c (arc4yPix c i)

/-- Start point of the first straight connecting segment: the code draws
`ax.plot([arc1x[-1], arc2x[1]], [arc1y[-1], arc2y[1]])` (line 434). -/
noncomputable def seg1Start (c : Cfg) : ℝ × ℝ := (arc1x c 49, arc1y c 49)

/-- End point of the first straight connecting segment (line 434): note the
code uses index `1`, the second sample of arc2. -/
noncomputable def seg1End (c : Cfg) : ℝ × ℝ := (arc2x c 1, arc2y c 1)

/-- Start point of the second straight connecting segment (line 435). -/
noncomputable def seg2Start (c : Cfg) : ℝ × ℝ := (arc3x c 49, arc3y c 49)

/-- End point of the second straight connecting segment (line 435): index
`1`, the second sample of arc4. -/
noncomputable def seg2End (c : Cfg) : ℝ × ℝ := (arc4x c 1, arc4y c 1)

/-- `summit = [arc2x[-1], arc2y[-1]]` (line 437). -/
noncomputable def summit (c : Cfg) : ℝ × ℝ := (arc2x c 49, arc2y c 49)

/-- Python float modulo `a % b` for `b > 0` (finite operands):
`a - b * floor (a / b)`. -/
noncomputable def pymod (a b : ℝ) : ℝ := a - b * (⌊a / b⌋ : ℤ)

/-- `ang = np.degrees(theta) % 360.0` (line 446). -/
noncomputable def ang (c : Cfg) : ℝ := pymod (theta c * 180 / Real.pi) 360

/-- `"\n" * int_line_num` (line 443). -/
def newlines (n : ℕ) : String := String.mk (List.replicate n '\n')

/-- The rotation / padding logic of lines 456-476.  In the source the first
`if` (angles in `[0, 90]`) also assigns `rotation = ang`, but that value is
always overwritten because the following `if/elif/else` chain assigns
`rotation` on every path; only its text padding survives.  Returns the
`rotation` passed to `ax.axes.text` together with the padded string. -/
noncomputable def labelRotationText (a : ℝ) (strText strTemp : String) : ℝ × String :=
  let st1 := if 0 ≤ a ∧ a ≤ 90 then strText ++ strTemp else strText
  if 90 < a ∧ a < 270 then (a + 180, strTemp ++ st1)
  else if 270 ≤ a ∧ a ≤ 360 then (a, st1 ++ strTemp)
  else (a, st1)

/-- The geometric output of `add_curly_brace` (line 497), plus the label
rotation/text when `str_text` is non-empty. -/
structure BraceOut where
  theta : ℝ
  summit : ℝ × ℝ
  arc1 : (Fin 50 → ℝ) × (Fin 50 → ℝ)
  arc2 : (Fin 50 → ℝ) × (Fin 50 → ℝ)
  arc3 : (Fin 50 → ℝ) × (Fin 50 → ℝ)
  arc4 : (Fin 50 → ℝ) × (Fin 50 → ℝ)
  seg1 : (ℝ × ℝ) × (ℝ × ℝ)
  seg2 : (ℝ × ℝ) × (ℝ × ℝ)
  label : Option (ℝ × String)

/-- The successful result of `add_curly_brace`. -/
noncomputable def braceOut (c : Cfg) : BraceOut where
  theta := theta c
  summit := summit c
  arc1 := (arc1x c, arc1y c)
  arc2 := (arc2x c, arc2y c)
  arc3 := (arc3x c, arc3y c)
  arc4 := (arc4x c, arc4y c)
  seg1 := (seg1Start c, seg1End c)
  seg2 := (seg2Start c, seg2End c)
  label :=
    if c.strText = "" then none
    else some (labelRotationText (ang c) c.strText (newlines c.intLineNum))

/-- `add_curly_brace`.  The function has no exception path: every
quantity it divides by (the pixel/length ratios at lines 235-236, the
back-conversion at lines 292-300) is a numpy `float64` scalar or array,
and numpy division by zero yields `inf`/`nan` with a `RuntimeWarning`
instead of raising; everything else is numpy arithmetic and drawing
calls.  The `Except` result type records this: the call always returns
`.ok` with the full geometry, for every input, degenerate viewports
included. -/
noncomputable def add_curly_brace (c : Cfg) : Except PyErr BraceOut :=
  .ok (braceOut c)

/-! ## Embedding of `src/utils/add_marker_line.py` -/

/-- A value of one of the parameter dictionaries passed to `_align_params`:
a string, a float, or Python `None` (as used by `markevery`). -/
inductive MVal where
  | str (s : String) : MVal
  | num (x : ℝ) : MVal
  | pyNone : MVal
deriving Inhabited

/-- A Python argument that `_to_list` normalizes: either a single value
(scalars and strings count as one element) or a sequence
(list/tuple/ndarray). -/
inductive PVal (α : Type) where
  | single (a : α) : PVal α
  | seq (l : List α) : PVal α

/-- The inner `_to_list` of `_align_params` (lines 262-269): strings and
non-sequences become one-element lists, sequences become lists. -/
def _to_list {α : Type} : PVal α → List α
  | .single a => [a]
  | .seq l => l

/-- Alignment of one dictionary value (lines 279-284): a value already of
maximal length is returned unchanged, a shorter one is extended cyclically
by `value[i % len(value)]`.  When the value is empty and `maxLen > 0`,
Python's `i % 0` raises `ZeroDivisionError`. -/
def alignValue {α : Type} [Inhabited α] (maxLen : ℕ) (v : List α) : Except PyErr (List α) :=
  if maxLen ≤ v.length then .ok v
  else if v.length = 0 then .error .zeroDivisionError
  else .ok ((List.range maxLen).map fun i => v.getD (i % v.length) default)

/-- The alignment loop over the dictionary entries, in insertion order. -/
def alignLoop {α : Type} [Inhabited α] (maxLen : ℕ) :
    List (String × List α) → Except PyErr (List (String × List α))
  | [] => .ok []
  | kv :: rest =>
    match alignValue maxLen kv.2 with
    | .error e => .error e
    | .ok v =>
      match alignLoop maxLen rest with
      | .error e => .error e
      | .ok r => .ok ((kv.1, v) :: r)

/-- `_align_params` (lines 229-286): normalize every value to a list,
compute the maximal length (1 for an empty dictionary), align all values to
that length, and return the aligned dictionary with the maximal length. -/
def _align_params {α : Type} [Inhabited α] (params : List (String × PVal α)) :
    Except PyErr (List (String × List α) × ℕ) :=
  let listParams := params.map fun kv => (kv.1, _to_list kv.2)
  let maxLen :=
    if listParams.isEmpty then 1
    else (listParams.map fun kv => kv.2.length).foldr Nat.max 0
  match alignLoop maxLen listParams with
  | .error e => .error e
  | .ok res => .ok (res, maxLen)

/-- The maximal length computed by `_align_params` (line 275) for a
non-empty dictionary: the maximum element count among the listified values
(a string or non-sequence counts as one element). -/
def maxLenOf {α : Type} (params : List (String × PVal α)) : ℕ :=
  ((params.map fun kv => (kv.1, _to_list kv.2)).map fun kv => kv.2.length).foldr
    Nat.max 0

/-- Point selection of `_set_mode` in `"single"` mode (lines 334-338):
keep the entries whose index `idx` satisfies `idx % value_len == i`. -/
def maskSel {α : Type} (l : List α) (i n : ℕ) : List α :=
  ((List.range l.length).zip l).filterMap fun p =>
    if p.1 % n = i then some p.2 else none

/-- `np.array_split(l, n)[i]` (lines 341-342): the first `len % n` groups
have `len / n + 1` elements, the remaining ones `len / n`. -/
def arraySplitGet {α : Type} (l : List α) (n i : ℕ) : List α :=
  let sz := l.length / n
  let rem := l.length % n
  let start := if i < rem then i * (sz + 1) else rem * (sz + 1) + (i - rem) * sz
  let len := if i < rem then sz + 1 else sz
  (l.drop start).take len

/-- The `"group-end"` slice of `_set_mode` (lines 345-350).  Python's
`max(0, i - (value_len - remainder))` equals truncated natural
subtraction. -/
def groupEndSlice {α : Type} (l : List α) (n i : ℕ) : List α :=
  let gs := l.length / n
  let rem := l.length % n
  let start := i * gs + (i - (n - rem))
  let extra := if n - rem ≤ i then 1 else 0
  (l.drop start).take (gs + extra)

/-- `_set_mode` (lines 289-356): selects a subset of the points according to
the distribution mode; an unknown mode raises `ValueError` (line 353). -/
def _set_mode (x y : List ℝ) (mode : String) (i n : ℕ) :
    Except PyErr (List ℝ × List ℝ) :=
  if mode = "single" then .ok (maskSel x i n, maskSel y i n)
  else if mode = "group-start" then .ok (arraySplitGet x n i, arraySplitGet y n i)
  else if mode = "group-end" then .ok (groupEndSlice x n i, groupEndSlice y n i)
  else .error .valueError

/-- The distribution modes `_set_mode` accepts without raising
`ValueError` (line 353). -/
def validMode (m : String) : Prop :=
  m = "single" ∨ m = "group-start" ∨ m = "group-end"

/-- `np.linspace a b n` for `n ≥ 2`: `n` equally spaced samples from `a`
to `b` inclusive. -/
noncomputable def linspace (a b : ℝ) (n : ℕ) : List ℝ :=
  (List.range n).map fun i => a + (b - a) * (i : ℝ) / ((n : ℝ) - 1)

/-- Lengths of the consecutive segments of a polyline
(`np.sqrt(np.diff(x)**2 + np.diff(y)**2)`, line 152). -/
noncomputable def segLengths : List ℝ → List ℝ → List ℝ
  | x0 :: x1 :: xr, y0 :: y1 :: yr =>
    Real.sqrt ((x1 - x0) ^ 2 + (y1 - y0) ^ 2) :: segLengths (x1 :: xr) (y1 :: yr)
  | _, _ => []

/-- Running sums with accumulator, for `np.cumsum`. -/
def cumsumAux (s : ℝ) : List ℝ → List ℝ
  | [] => []
  | v :: r => (s + v) :: cumsumAux (s + v) r

/-- `np.cumsum`. -/
def cumsum (l : List ℝ) : List ℝ := cumsumAux 0 l

/-- One query of `np.interp`: clamped piecewise-linear interpolation over
the nodes `(x, f x)`.  Its numeric values are irrelevant to the claims;
only the fact that it raises no exception on non-empty nodes matters. -/
noncomputable def interp1 : List (ℝ × ℝ) → ℝ → ℝ
  | [], _ => 0
  | [(_, fp0)], _ => fp0
  | (xp0, fp0) :: (xp1, fp1) :: rest, q =>
    if q ≤ xp0 then fp0
    else if q < xp1 then fp0 + (fp1 - fp0) * (q - xp0) / (xp1 - xp0)
    else interp1 ((xp1, fp1) :: rest) q

/-- Construction of `x_line`, `y_line` (lines 143-158).  With exactly two
points a straight line is sampled by `np.linspace`; otherwise the polyline
is resampled by arc length with `np.interp`, which raises `ValueError` when
its array of sample points is empty (i.e. when the inputs are empty).  The
numpy divisions involved warn but never raise. -/
noncomputable def buildLine (xs ys : List ℝ) (lineDensity : ℝ) :
    Except PyErr (List ℝ × List ℝ) :=
  if xs.length = 2 ∧ ys.length = 2 then
    let len := Real.sqrt ((xs.getD 1 0 - xs.getD 0 0) ^ 2 + (ys.getD 1 0 - ys.getD 0 0) ^ 2)
    let numPoints := max 2 (Int.toNat ⌊lineDensity * len⌋)
    .ok (linspace (xs.getD 0 0) (xs.getD 1 0) numPoints,
         linspace (ys.getD 0 0) (ys.getD 1 0) numPoints)
  else
    let segs := segLengths xs ys
    let total := segs.sum
    let numPoints := max 2 (Int.toNat ⌊total * lineDensity⌋)
    let t := (cumsum (0 :: segs)).map fun v => v / total
    let tNew := linspace 0 1 numPoints
    if xs.length = 0 then .error .valueError
    else .ok (tNew.map (interp1 (t.zip xs)), tNew.map (interp1 (t.zip ys)))

/-- Arguments of `add_marker_line` that the modelled control flow depends
on.  The drawing style parameters are carried as `PVal MVal` exactly as they
reach the two parameter dictionaries of lines 160-170 and 195-205. -/
structure MLArgs where
  xs : List ℝ
  ys : List ℝ
  lineDensity : ℝ
  lineMode : String
  style : PVal MVal
  size : PVal MVal
  edgecolor : PVal MVal
  edgewidth : PVal MVal
  facecolor : PVal MVal
  facecoloralt : PVal MVal
  markevery : PVal MVal
  fillstyle : PVal MVal
  alpha : PVal MVal
  pointMode : String
  pointStyle : PVal MVal
  pointSize : PVal MVal
  pointEdgecolor : PVal MVal
  pointEdgewidth : PVal MVal
  pointFacecolor : PVal MVal
  pointFacecoloralt : PVal MVal
  pointMarkevery : PVal MVal
  pointFillstyle : PVal MVal
  pointAlpha : PVal MVal

/-- The `line_params` dictionary (lines 160-170), in insertion order. -/
def lineParams (a : MLArgs) : List (String × PVal MVal) :=
  [("style", a.style), ("size", a.size), ("edgecolor", a.edgecolor),
   ("edgewidth", a.edgewidth), ("facecolor", a.facecolor),
   ("facecoloralt", a.facecoloralt), ("markevery", a.markevery),
   ("fillstyle", a.fillstyle), ("alpha", a.alpha)]

/-- The `point_params` dictionary (lines 195-205), in insertion order. -/
def pointParams (a : MLArgs) : List (String × PVal MVal) :=
  [("point_style", a.pointStyle), ("point_size", a.pointSize),
   ("point_edgecolor", a.pointEdgecolor), ("point_edgewidth", a.pointEdgewidth),
   ("point_facecolor", a.pointFacecolor), ("point_facecoloralt", a.pointFacecoloralt),
   ("point_markevery", a.pointMarkevery), ("point_fillstyle", a.pointFillstyle),
   ("point_alpha", a.pointAlpha)]

/-- One drawing phase (the loops at lines 174-192 and 208-226): for each
`i < n`, `_set_mode` selects the points and `ax.plot` draws them.  Returns
the point sets drawn so far and the first exception, if any; an exception
ends the phase before that iteration's `ax.plot` call. -/
noncomputable def phaseGo (xl yl : List ℝ) (mode : String) (n : ℕ) :
    List ℕ → List (List ℝ × List ℝ) × Option PyErr
  | [] => ([], none)
  | i :: rest =>
    match _set_mode xl yl mode i n with
    | .error e => ([], some e)
    | .ok pts =>
      let pr := phaseGo xl yl mode n rest
      (pts :: pr.1, pr.2)

/-- A full drawing phase over `i in range(n)`. -/
noncomputable def runPhase (xl yl : List ℝ) (mode : String) (n : ℕ) :
    List (List ℝ × List ℝ) × Option PyErr :=
  phaseGo xl yl mode n (List.range n)

/-- The extra-point phase of `add_marker_line` (lines 195-226): align the
point parameters and draw the selected subsets of the original `x_point`,
`y_point`; `ph1draws` are the point sets already drawn by the line
phase. -/
noncomputable def pointPhase (a : MLArgs) (ph1draws : List (List ℝ × List ℝ)) :
    List (List ℝ × List ℝ) × Option PyErr :=
  match _align_params (pointParams a) with
  | .error e => (ph1draws, some e)
  | .ok rm =>
    let ph2 := runPhase a.xs a.ys a.pointMode rm.2
    (ph1draws ++ ph2.1, ph2.2)

/-- The marker-line phase of `add_marker_line` (lines 160-192) followed by
the extra-point phase: align the line parameters and draw the selected
subsets of the interpolated line `xy`. -/
noncomputable def linePhase (a : MLArgs) (xy : List ℝ × List ℝ) :
    List (List ℝ × List ℝ) × Option PyErr :=
  match _align_params (lineParams a) with
  | .error e => ([], some e)
  | .ok rn =>
    let ph1 := runPhase xy.1 xy.2 a.lineMode rn.2
    match ph1.2 with
    | some e => (ph1.1, some e)
    | none => pointPhase a ph1.1

/-- `add_marker_line` (lines 15-226): the length check (lines 137-140)
raises `ValueError` before anything is drawn; then the line is built, the
line parameters aligned, the marker-line phase drawn, the point parameters
aligned and the extra-point phase drawn (on the original `x_point`,
`y_point`).  The result is the list of point sets passed to `ax.plot`, in
order, together with the first exception raised (`none` if the call
returns normally). -/
noncomputable def add_marker_line (a : MLArgs) :
    List (List ℝ × List ℝ) × Option PyErr :=
  if a.xs.length ≠ a.ys.length then ([], some .valueError)
  else
    match buildLine a.xs a.ys a.lineDensity with
    | .error e => ([], some e)
    | .ok xy => linePhase a xy

/-! ## Concrete configurations used by the scenario claims and witnesses -/

/-- The scenario of spec §8: `p1 = (0,0)`, `p2 = (1,0)`, linear axes,
viewport `[0,1] × [0,1]` at `100 × 100` pixels, curvature `0.1`. -/
noncomputable def c7cfg : Cfg where
  axWidth := 100
  axHeight := 100
  xlim0 := 0
  xlim1 := 1
  ylim0 := 0
  ylim1 := 1
  xLog := false
  yLog := false
  p1x := 0
  p1y := 0
  p2x := 1
  p2y := 0
  kR := 1 / 10
  boolAuto := true
  strText := ""
  intLineNum := 2
  textOffset := (0, 0)

/-- A degenerate viewport with zero pixel width but a non-degenerate data
extent. -/
noncomputable def c2cex : Cfg where
  axWidth := 0
  axHeight := 100
  xlim0 := 0
  xlim1 := 1
  ylim0 := 0
  ylim1 := 1
  xLog := false
  yLog := false
  p1x := 0
  p1y := 0
  p2x := 1
  p2y := 1
  kR := 1 / 10
  boolAuto := true
  strText := ""
  intLineNum := 2
  textOffset := (0, 0)

/-- A viewport whose x data extent is degenerate (`xmax = xmin`). -/
noncomputable def c2wcfg : Cfg where
  axWidth := 100
  axHeight := 100
  xlim0 := 3
  xlim1 := 3
  ylim0 := 0
  ylim1 := 1
  xLog := false
  yLog := false
  p1x := 0
  p1y := 0
  p2x := 1
  p2y := 1
  kR := 1 / 10
  boolAuto := true
  strText := ""
  intLineNum := 2
  textOffset := (0, 0)

/-- Coincident endpoints `p1 = p2 = (1/2, 0)` on a logarithmic x axis with
x extent `[1, e]` (transformed to `[0, 1]`). -/
noncomputable def c3cex : Cfg where
  axWidth := 100
  axHeight := 100
  xlim0 := 1
  xlim1 := Real.exp 1
  ylim0 := 0
  ylim1 := 1
  xLog := true
  yLog := false
  p1x := 1 / 2
  p1y := 0
  p2x := 1 / 2
  p2y := 0
  kR := 1 / 10
  boolAuto := true
  strText := ""
  intLineNum := 2
  textOffset := (0, 0)

/-- Coincident endpoints `p1 = p2 = (3/10, 7/10)` on linear axes. -/
noncomputable def c3wcfg : Cfg where
  axWidth := 100
  axHeight := 100
  xlim0 := 0
  xlim1 := 1
  ylim0 := 0
  ylim1 := 1
  xLog := false
  yLog := false
  p1x := 3 / 10
  p1y := 7 / 10
  p2x := 3 / 10
  p2y := 7 / 10
  kR := 1 / 10
  boolAuto := true
  strText := ""
  intLineNum := 2
  textOffset := (0, 0)

/-- The log-x scenario of spec §8 — `p1 = (1,0)`, `p2 = (100,0)` on a
logarithmic x axis — over an arbitrary viewport. -/
noncomputable def c5cfg (w h xl0 xl1 yl0 yl1 : ℝ) : Cfg where
  axWidth := w
  axHeight := h
  xlim0 := xl0
  xlim1 := xl1
  ylim0 := yl0
  ylim1 := yl1
  xLog := true
  yLog := false
  p1x := 1
  p1y := 0
  p2x := 100
  p2y := 0
  kR := 1 / 10
  boolAuto := true
  strText := ""
  intLineNum := 2
  textOffset := (0, 0)

/-- Marker-line arguments with two valid points and default-like scalar
style parameters. -/
noncomputable def mlBase : MLArgs where
  xs := [0, 1]
  ys := [0, 2]
  lineDensity := 10
  lineMode := "single"
  style := .single (.str "o")
  size := .single (.num 2)
  edgecolor := .single (.str "#1F77B4")
  edgewidth := .single (.num 0)
  facecolor := .single (.str "#1F77B4")
  facecoloralt := .single (.str "#F07775")
  markevery := .single .pyNone
  fillstyle := .single (.str "full")
  alpha := .single (.num 1)
  pointMode := "single"
  pointStyle := .single (.str "s")
  pointSize := .single (.num 0)
  pointEdgecolor := .single (.str "#1F77B4")
  pointEdgewidth := .single (.num 0)
  pointFacecolor := .single (.str "#1F77B4")
  pointFacecoloralt := .single (.str "#F07775")
  pointMarkevery := .single .pyNone
  pointFillstyle := .single (.str "full")
  pointAlpha := .single (.num 1)

/-- `mlBase` with an invalid `line_mode` but equal-length inputs. -/
noncomputable def mlBadMode : MLArgs := { mlBase with lineMode := "group" }

/-- `mlBase` with mismatched coordinate lengths. -/
noncomputable def mlMismatch : MLArgs := { mlBase with ys := [0] }

/-! ## C1 — signed-log round trip -/

/-- C1 (amended): the signed-log forward transform followed by the
implemented output conversion returns the original value for `v = 0` and
for every `v` with `|v| > 1`.  (For `0 < |v| ≤ 1` it does not — see the
counterexample.) -/
theorem claim_C1 (v : ℝ) (h : v = 0 ∨ 1 < |v|) : sgnExp (sgnLog v) = v := by
  rcases h with h | h
  · subst h
    simp [sgnLog, sgnExp]
  · rcases lt_trichotomy v 0 with hv | hv | hv
    · have habs : |v| = -v := abs_of_neg hv
      have hv1 : v < -1 := by rw [habs] at h; linarith
      have hlog : sgnLog v = -Real.log |v| := by
        unfold sgnLog
        rw [if_neg (by linarith), if_pos hv]
      have hlpos : 0 < Real.log |v| := by
        rw [habs]
        exact Real.log_pos (by linarith)
      rw [hlog]
      unfold sgnExp
      rw [if_neg (by linarith), if_pos (by linarith), abs_neg, abs_of_pos hlpos,
        habs, Real.exp_log (by linarith : (0:ℝ) < -v)]
      ring
    · exfalso
      rw [hv] at h
      norm_num at h
    · have hv1 : (1:ℝ) < v := by rwa [abs_of_pos hv] at h
      have hlog : sgnLog v = Real.log v := by
        unfold sgnLog
        rw [if_pos hv]
      rw [hlog]
      unfold sgnExp
      rw [if_pos (Real.log_pos hv1)]
      exact Real.exp_log hv

/-- Witness for C1 at `v = 2`. -/
theorem claim_C1_witness : ((1:ℝ) < |(2:ℝ)|) ∧ sgnExp (sgnLog 2) = 2 :=
  ⟨by norm_num, claim_C1 2 (Or.inr (by norm_num))⟩

/-- Counterexample to C1 as stated: `v = 1/2` round-trips to `-2`
(the forward transform gives `ln (1/2) = -ln 2 < 0`, and the implemented
inverse maps a negative value `w` to `-exp |w|`). -/
theorem claim_C1_counterexample :
    sgnExp (sgnLog (1/2 : ℝ)) = -2 ∧ sgnExp (sgnLog (1/2 : ℝ)) ≠ 1/2 := by
  have h1 : sgnLog (1/2 : ℝ) = -Real.log 2 := by
    unfold sgnLog
    rw [if_pos (by norm_num : (0:ℝ) < 1/2), show (1/2 : ℝ) = 2⁻¹ by norm_num,
      Real.log_inv]
  have hl2 : (0:ℝ) < Real.log 2 := Real.log_pos (by norm_num)
  have h2 : sgnExp (-Real.log 2) = -2 := by
    unfold sgnExp
    rw [if_neg (by linarith), if_pos (by linarith), abs_neg, abs_of_pos hl2,
      Real.exp_log (by norm_num : (0:ℝ) < 2)]
  constructor
  · rw [h1]
    exact h2
  · rw [h1, h2]
    norm_num

/-! ## C6 — label rotation and padding -/

/-- C6 (amended): for a normalized angle `a ∈ [0, 360)`, the computed
rotation is `a` with trailing padding when `a ∈ [0,90] ∪ [270,360)`, and
`a + 180` with leading padding when `a ∈ (90,270)`.  In particular at
`a = 180` the rotation is `360`, not `0` — the code does not wrap
`180 + 180` back into `[0,360)` (see the counterexample). -/
theorem claim_C6 (a : ℝ) (s p : String) (h0 : 0 ≤ a) (h1 : a < 360) :
    ((a ≤ 90 ∨ 270 ≤ a) → labelRotationText a s p = (a, s ++ p)) ∧
    (90 < a → a < 270 → labelRotationText a s p = (a + 180, p ++ s)) := by
  constructor
  · intro hc
    rcases hc with hc | hc
    · simp only [labelRotationText]
      rw [if_neg (by intro hh; linarith [hh.1]),
        if_neg (by intro hh; linarith [hh.1]), if_pos ⟨h0, hc⟩]
    · simp only [labelRotationText]
      rw [if_neg (by intro hh; linarith [hh.2]),
        if_pos ⟨hc, by linarith⟩, if_neg (by intro hh; linarith [hh.2])]
  · intro ha hb
    simp only [labelRotationText]
    rw [if_pos ⟨ha, hb⟩, if_neg (by intro hh; linarith [hh.2])]

/-- Witness for C6 at `a = 45` (trailing padding, rotation kept) and
`a = 200` (leading padding, rotation `+180`). -/
theorem claim_C6_witness :
    labelRotationText 45 "x" "nn" = (45, "x" ++ "nn") ∧
    labelRotationText 200 "x" "nn" = (380, "nn" ++ "x") := by
  constructor
  · exact (claim_C6 45 "x" "nn" (by norm_num) (by norm_num)).1 (Or.inl (by norm_num))
  · have h := (claim_C6 200 "x" "nn" (by norm_num) (by norm_num)).2
      (by norm_num) (by norm_num)
    rw [h]
    norm_num

/-- Counterexample to C6 as stated: at angle exactly `180` the computed
rotation is `360`, not `0`. -/
theorem claim_C6_counterexample :
    (labelRotationText 180 "x" "nn").1 = 360 ∧ (labelRotationText 180 "x" "nn").1 ≠ 0 := by
  have h : labelRotationText (180:ℝ) "x" "nn" = (360, "nn" ++ "x") := by
    simp only [labelRotationText]
    rw [if_pos (by norm_num : (90:ℝ) < 180 ∧ (180:ℝ) < 270),
      if_neg (by norm_num : ¬((0:ℝ) ≤ 180 ∧ (180:ℝ) ≤ 90))]
    norm_num
  rw [h]
  norm_num

/-! ## C8 — arc centers -/

/-- C8: for every input with distinct endpoints, the four arc centers in
pixel space follow the reference derivation: `center1 = p1 + r·(cos θ,
sin θ)`, `center4 = p2 − r·(cos θ, sin θ)`, and centers 2 and 3 are the
midpoint offset by `2r` along the perpendicular `(-sin θ, cos θ)` and by
`−r` (center 2) or `+r` (center 3) along `(cos θ, sin θ)`; with
`θ = atan2(dy, dx)` and `r` the pixel distance times the curvature. -/
theorem claim_C8 (c : Cfg) (_hp : (c.p1x, c.p1y) ≠ (c.p2x, c.p2y)) :
    theta c = arctan2 (pt2y c - pt1y c) (pt2x c - pt1x c) ∧
    rr c = Real.sqrt ((pt2x c - pt1x c) ^ 2 + (pt2y c - pt1y c) ^ 2) * c.kR ∧
    (x11 c, y11 c) =
      (pt1x c + rr c * Real.cos (theta c), pt1y c + rr c * Real.sin (theta c)) ∧
    (x44 c, y44 c) =
      (pt2x c - rr c * Real.cos (theta c), pt2y c - rr c * Real.sin (theta c)) ∧
    (x22 c, y22 c) =
      ((pt1x c + pt2x c) / 2 + 2 * rr c * (-Real.sin (theta c)) +
          rr c * (-Real.cos (theta c)),
        (pt1y c + pt2y c) / 2 + 2 * rr c * Real.cos (theta c) +
          rr c * (-Real.sin (theta c))) ∧
    (x33 c, y33 c) =
      ((pt1x c + pt2x c) / 2 + 2 * rr c * (-Real.sin (theta c)) +
          rr c * Real.cos (theta c),
        (pt1y c + pt2y c) / 2 + 2 * rr c * Real.cos (theta c) +
          rr c * Real.sin (theta c)) := by
  refine ⟨rfl, rfl, rfl, rfl, ?_, ?_⟩
  · simp only [Prod.mk.injEq]
    exact ⟨by unfold x22; ring, by unfold y22; ring⟩
  · simp only [Prod.mk.injEq]
    exact ⟨by unfold x33; ring, by unfold y33; ring⟩

/-- Witness for C8 at the §8 scenario configuration. -/
theorem claim_C8_witness :
    ((c7cfg.p1x, c7cfg.p1y) ≠ (c7cfg.p2x, c7cfg.p2y)) ∧
    (x22 c7cfg, y22 c7cfg) =
      ((pt1x c7cfg + pt2x c7cfg) / 2 + 2 * rr c7cfg * (-Real.sin (theta c7cfg)) +
          rr c7cfg * (-Real.cos (theta c7cfg)),
        (pt1y c7cfg + pt2y c7cfg) / 2 + 2 * rr c7cfg * Real.cos (theta c7cfg) +
          rr c7cfg * (-Real.sin (theta c7cfg))) := by
  have hp : (c7cfg.p1x, c7cfg.p1y) ≠ (c7cfg.p2x, c7cfg.p2y) := by
    intro hcon
    have h01 : c7cfg.p1x = c7cfg.p2x := congrArg Prod.fst hcon
    have : (0:ℝ) = 1 := h01
    norm_num at this
  exact ⟨hp, (claim_C8 c7cfg hp).2.2.2.2.1⟩

/-! ## Shared helper lemmas -/

/-- `np.arctan2 0 0 = 0`. -/
theorem arctan2_zero_zero : arctan2 0 0 = 0 := by
  unfold arctan2
  norm_num

/-- `np.arctan2 0 x = 0` for positive `x`. -/
theorem arctan2_zero_pos (x : ℝ) (hx : 0 < x) : arctan2 0 x = 0 := by
  unfold arctan2
  rw [if_pos hx, zero_div, Real.arctan_zero]

/-- The x pixel scale is nonzero when the pixel width is nonzero and the
transformed x extent is non-degenerate. -/
theorem xscale_ne_zero (c : Cfg) (hW : c.axWidth ≠ 0) (hl : xlim1T c ≠ xlim0T c) :
    xscale c ≠ 0 := by
  unfold xscale
  split_ifs
  · exact div_ne_zero hW (by rwa [abs_ne_zero, sub_ne_zero])
  · exact one_ne_zero

/-- The y pixel scale is nonzero when the pixel height is nonzero and the
transformed y extent is non-degenerate. -/
theorem yscale_ne_zero (c : Cfg) (hH : c.axHeight ≠ 0) (hl : ylim1T c ≠ ylim0T c) :
    yscale c ≠ 0 := by
  unfold yscale
  split_ifs
  · exact div_ne_zero hH (by rwa [abs_ne_zero, sub_ne_zero])
  · exact one_ne_zero

/-- On a linear x axis, back-conversion undoes the pixel conversion. -/
theorem outX_linear_inv (c : Cfg) (hlin : c.xLog = false) (hs : xscale c ≠ 0)
    (v : ℝ) : outX c ((v - xlim0T c) * xscale c) = v := by
  unfold outX
  rw [hlin]
  simp only [Bool.false_eq_true, if_false]
  rw [mul_div_assoc, div_self hs, mul_one]
  ring

/-- On a linear y axis, back-conversion undoes the pixel conversion. -/
theorem outY_linear_inv (c : Cfg) (hlin : c.yLog = false) (hs : yscale c ≠ 0)
    (v : ℝ) : outY c ((v - ylim0T c) * yscale c) = v := by
  unfold outY
  rw [hlin]
  simp only [Bool.false_eq_true, if_false]
  rw [mul_div_assoc, div_self hs, mul_one]
  ring

/-! ## C2 — degenerate viewport handling -/

/-- C2 (amended): for every call whose viewport is degenerate — zero pixel
width or height, or a data extent with `max = min` on either axis — the
brace builder signals NO error at all: every division involved operates on
numpy `float64` values, whose zero division yields `inf`/`nan` with a
`RuntimeWarning` rather than raising, so the call completes and returns
(and draws) full geometry.  No `InvalidViewport` error exists anywhere in
the code. -/
theorem claim_C2 (c : Cfg)
    (_h : c.axWidth = 0 ∨ c.axHeight = 0 ∨ c.xlim0 = c.xlim1 ∨ c.ylim0 = c.ylim1) :
    add_curly_brace c = .ok (braceOut c) := rfl

/-- Witness for C2 with a degenerate x data extent (`xmin = xmax = 3`):
the call still completes with full geometry. -/
theorem claim_C2_witness :
    c2wcfg.xlim0 = c2wcfg.xlim1 ∧ add_curly_brace c2wcfg = .ok (braceOut c2wcfg) :=
  ⟨rfl, claim_C2 c2wcfg (Or.inr (Or.inr (Or.inl rfl)))⟩

/-- Counterexample to C2 as stated: with zero pixel width (a degenerate
viewport) but a non-degenerate data extent, no error is signalled —
the call completes and returns full geometry (in the Python code the arc
coordinates are divided by the zero scale, which numpy turns into `inf`
values with a warning rather than an exception). -/
theorem claim_C2_counterexample :
    c2cex.axWidth = 0 ∧ add_curly_brace c2cex = .ok (braceOut c2cex) :=
  ⟨rfl, rfl⟩

/-! ## C3 — coincident endpoints -/

/-- C3 (amended): with `p1 = p2`, `add_curly_brace` raises no error and
the radius is `0`, for EVERY configuration (numpy float64 division never
raises, and no normalization by the zero distance occurs).  Whenever the
pixel size is nonzero and the transformed data extent is non-degenerate
on an axis (for a linear axis that is exactly `max ≠ min`), every point
of all four arc polylines has, on that axis, the coordinate of the
signed-log/signed-exp round-trip image of `p1` — which is `p1`'s own
coordinate on a linear axis, but differs from it on a logarithmic axis
when the coordinate has magnitude at most one (see the
counterexample). -/
theorem claim_C3 (c : Cfg) (hpx : c.p1x = c.p2x) (hpy : c.p1y = c.p2y) :
    add_curly_brace c = .ok (braceOut c) ∧ rr c = 0 ∧
    (c.axWidth ≠ 0 → xlim1T c ≠ xlim0T c → ∀ i : Fin 50,
      arc1x c i = (if c.xLog = true then sgnExp (sgnLog c.p1x) else c.p1x) ∧
      arc2x c i = (if c.xLog = true then sgnExp (sgnLog c.p1x) else c.p1x) ∧
      arc3x c i = (if c.xLog = true then sgnExp (sgnLog c.p1x) else c.p1x) ∧
      arc4x c i = (if c.xLog = true then sgnExp (sgnLog c.p1x) else c.p1x)) ∧
    (c.axHeight ≠ 0 → ylim1T c ≠ ylim0T c → ∀ i : Fin 50,
      arc1y c i = (if c.yLog = true then sgnExp (sgnLog c.p1y) else c.p1y) ∧
      arc2y c i = (if c.yLog = true then sgnExp (sgnLog c.p1y) else c.p1y) ∧
      arc3y c i = (if c.yLog = true then sgnExp (sgnLog c.p1y) else c.p1y) ∧
      arc4y c i = (if c.yLog = true then sgnExp (sgnLog c.p1y) else c.p1y)) := by
  have hptx : pt2x c = pt1x c := by
    unfold pt2x pt1x
    rw [← hpx]
  have hpty : pt2y c = pt1y c := by
    unfold pt2y pt1y
    rw [← hpy]
  have hdx : pt2x c - pt1x c = 0 := by rw [hptx, sub_self]
  have hdy : pt2y c - pt1y c = 0 := by rw [hpty, sub_self]
  have hr : rr c = 0 := by
    unfold rr
    rw [hdx, hdy]
    norm_num
  have h1x : ∀ i, arc1xPix c i = pt1x c := by
    intro i
    unfold arc1xPix x11
    rw [hr]
    ring
  have h1y : ∀ i, arc1yPix c i = pt1y c := by
    intro i
    unfold arc1yPix y11
    rw [hr]
    ring
  have h2x : ∀ i, arc2xPix c i = pt1x c := by
    intro i
    unfold arc2xPix x22
    rw [hr, hptx]
    ring
  have h2y : ∀ i, arc2yPix c i = pt1y c := by
    intro i
    unfold arc2yPix y22
    rw [hr, hpty]
    ring
  have h3x : ∀ i, arc3xPix c i = pt1x c := by
    intro i
    unfold arc3xPix x33
    rw [hr, hptx]
    ring
  have h3y : ∀ i, arc3yPix c i = pt1y c := by
    intro i
    unfold arc3yPix y33
    rw [hr, hpty]
    ring
  have h4x : ∀ i, arc4xPix c i = pt1x c := by
    intro i
    unfold arc4xPix x44
    rw [hr, hptx]
    ring
  have h4y : ∀ i, arc4yPix c i = pt1y c := by
    intro i
    unfold arc4yPix y44
    rw [hr, hpty]
    ring
  refine ⟨rfl, hr, ?_, ?_⟩
  · intro hW hxT i
    have hsx : xscale c ≠ 0 := xscale_ne_zero c hW hxT
    have ho : outX c (pt1x c) =
        (if c.xLog = true then sgnExp (sgnLog c.p1x) else c.p1x) := by
      by_cases hx : c.xLog = true
      · rw [if_pos hx]
        unfold outX
        rw [if_pos hx]
        congr 1
        have hpt : pt1x c = (txv c c.p1x - xlim0T c) * xscale c := rfl
        rw [hpt, mul_div_assoc, div_self hsx, mul_one, sub_add_cancel]
        unfold txv
        rw [if_pos hx]
      · have hx' : c.xLog = false := by simpa using hx
        rw [if_neg hx]
        have hpt : pt1x c = (txv c c.p1x - xlim0T c) * xscale c := rfl
        rw [hpt, outX_linear_inv c hx' hsx]
        unfold txv
        rw [if_neg hx]
    exact ⟨by rw [arc1x, h1x i, ho], by rw [arc2x, h2x i, ho],
      by rw [arc3x, h3x i, ho], by rw [arc4x, h4x i, ho]⟩
  · intro hH hyT i
    have hsy : yscale c ≠ 0 := yscale_ne_zero c hH hyT
    have ho : outY c (pt1y c) =
        (if c.yLog = true then sgnExp (sgnLog c.p1y) else c.p1y) := by
      by_cases hy : c.yLog = true
      · rw [if_pos hy]
        unfold outY
        rw [if_pos hy]
        congr 1
        have hpt : pt1y c = (tyv c c.p1y - ylim0T c) * yscale c := rfl
        rw [hpt, mul_div_assoc, div_self hsy, mul_one, sub_add_cancel]
        unfold tyv
        rw [if_pos hy]
      · have hy' : c.yLog = false := by simpa using hy
        rw [if_neg hy]
        have hpt : pt1y c = (tyv c c.p1y - ylim0T c) * yscale c := rfl
        rw [hpt, outY_linear_inv c hy' hsy]
        unfold tyv
        rw [if_neg hy]
    exact ⟨by rw [arc1y, h1y i, ho], by rw [arc2y, h2y i, ho],
      by rw [arc3y, h3y i, ho], by rw [arc4y, h4y i, ho]⟩

/-- Witness for C3 on linear axes at `p1 = p2 = (3/10, 7/10)`. -/
theorem claim_C3_witness :
    add_curly_brace c3wcfg = .ok (braceOut c3wcfg) ∧ rr c3wcfg = 0 ∧
    arc1x c3wcfg 0 = 3 / 10 ∧ arc2y c3wcfg 25 = 7 / 10 := by
  have h := claim_C3 c3wcfg rfl rfl
  have hx := h.2.2.1 (by show (100:ℝ) ≠ 0; norm_num)
    (by show (1:ℝ) ≠ (0:ℝ); norm_num) 0
  have hy := h.2.2.2 (by show (100:ℝ) ≠ 0; norm_num)
    (by show (1:ℝ) ≠ (0:ℝ); norm_num) 25
  exact ⟨h.1, h.2.1, hx.1, hy.2.1⟩

/-- Counterexample to C3 as stated: with a logarithmic x axis and
`p1 = p2 = (1/2, 0)` (non-degenerate viewport `[1, e] × [0, 1]` at
`100 × 100` pixels), the arc points all land at x-coordinate `-2`, not at
`p1`'s x-coordinate `1/2`: the output conversion maps the transformed
value `ln (1/2) < 0` to `-exp (ln 2) = -2`. -/
theorem claim_C3_counterexample :
    c3cex.p1x = c3cex.p2x ∧ c3cex.p1y = c3cex.p2y ∧
    arc1x c3cex 0 = -2 ∧ c3cex.p1x = 1 / 2 := by
  refine ⟨rfl, rfl, ?_, rfl⟩
  have hxlog : c3cex.xLog = true := rfl
  have hauto : c3cex.boolAuto = true := rfl
  have hl0 : xlim0T c3cex = 0 := by
    show txv c3cex c3cex.xlim0 = 0
    unfold txv
    rw [if_pos hxlog]
    show sgnLog 1 = 0
    unfold sgnLog
    rw [if_pos (by norm_num : (0:ℝ) < 1), Real.log_one]
  have hl1 : xlim1T c3cex = 1 := by
    show txv c3cex c3cex.xlim1 = 1
    unfold txv
    rw [if_pos hxlog]
    show sgnLog (Real.exp 1) = 1
    unfold sgnLog
    rw [if_pos (Real.exp_pos 1), Real.log_exp]
  have hs : xscale c3cex = 100 := by
    unfold xscale
    rw [if_pos hauto, hl1, hl0]
    show (100:ℝ) / |(1:ℝ) - 0| = 100
    norm_num
  have hp1 : txv c3cex c3cex.p1x = -Real.log 2 := by
    unfold txv
    rw [if_pos hxlog]
    show sgnLog (1 / 2) = -Real.log 2
    unfold sgnLog
    rw [if_pos (by norm_num : (0:ℝ) < 1/2), show (1/2:ℝ) = 2⁻¹ by norm_num,
      Real.log_inv]
  have hpt1 : pt1x c3cex = -Real.log 2 * 100 := by
    unfold pt1x
    rw [hp1, hl0, hs]
    ring
  have hdx : pt2x c3cex - pt1x c3cex = 0 := by
    have h : pt2x c3cex = pt1x c3cex := rfl
    rw [h, sub_self]
  have hdy : pt2y c3cex - pt1y c3cex = 0 := by
    have h : pt2y c3cex = pt1y c3cex := rfl
    rw [h, sub_self]
  have hr : rr c3cex = 0 := by
    unfold rr
    rw [hdx, hdy]
    norm_num
  have hpix : arc1xPix c3cex 0 = pt1x c3cex := by
    unfold arc1xPix x11
    rw [hr]
    ring
  show outX c3cex (arc1xPix c3cex 0) = -2
  rw [hpix, hpt1]
  unfold outX
  rw [if_pos hxlog, hs, hl0]
  rw [show -Real.log 2 * 100 / 100 + 0 = -Real.log 2 by ring]
  have hl2 : (0:ℝ) < Real.log 2 := Real.log_pos (by norm_num)
  unfold sgnExp
  rw [if_neg (by linarith), if_pos (by linarith), abs_neg, abs_of_pos hl2,
    Real.exp_log (by norm_num : (0:ℝ) < 2)]

/-! ## Evaluation of the §8 scenario configuration `c7cfg` -/

/-- Pixel/length x ratio of the scenario. -/
theorem c7_xscale : xscale c7cfg = 100 := by
  show (100:ℝ) / |(1:ℝ) - 0| = 100
  norm_num

/-- Pixel/length y ratio of the scenario. -/
theorem c7_yscale : yscale c7cfg = 100 := by
  show (100:ℝ) / |(1:ℝ) - 0| = 100
  norm_num

/-- `p1` maps to pixel x `0`. -/
theorem c7_pt1x : pt1x c7cfg = 0 := by
  show ((0:ℝ) - 0) * xscale c7cfg = 0
  ring

/-- `p1` maps to pixel y `0`. -/
theorem c7_pt1y : pt1y c7cfg = 0 := by
  show ((0:ℝ) - 0) * yscale c7cfg = 0
  ring

/-- `p2` maps to pixel x `100`. -/
theorem c7_pt2x : pt2x c7cfg = 100 := by
  show ((1:ℝ) - 0) * xscale c7cfg = 100
  rw [c7_xscale]
  norm_num

/-- `p2` maps to pixel y `0`. -/
theorem c7_pt2y : pt2y c7cfg = 0 := by
  show ((0:ℝ) - 0) * yscale c7cfg = 0
  ring

/-- The scenario's orientation angle is `0`. -/
theorem c7_theta : theta c7cfg = 0 := by
  unfold theta
  rw [c7_pt2x, c7_pt1x, c7_pt2y, c7_pt1y,
    show (0:ℝ) - 0 = 0 by ring, show (100:ℝ) - 0 = 100 by ring]
  exact arctan2_zero_pos 100 (by norm_num)

/-- The scenario's pixel radius is `10`. -/
theorem c7_rr : rr c7cfg = 10 := by
  unfold rr
  rw [c7_pt2x, c7_pt1x, c7_pt2y, c7_pt1y,
    show ((100:ℝ) - 0) ^ 2 + (0 - 0) ^ 2 = 100 ^ 2 by ring,
    Real.sqrt_sq (by norm_num : (0:ℝ) ≤ 100)]
  show (100:ℝ) * (1 / 10) = 10
  norm_num

/-- The scenario's arc2 centre. -/
theorem c7_x22 : x22 c7cfg = 40 := by
  unfold x22
  rw [c7_pt2x, c7_pt1x, c7_rr, c7_theta, Real.sin_zero, Real.cos_zero]
  norm_num

/-- The scenario's arc2 centre, y coordinate. -/
theorem c7_y22 : y22 c7cfg = 20 := by
  unfold y22
  rw [c7_pt2y, c7_pt1y, c7_rr, c7_theta, Real.sin_zero, Real.cos_zero]
  norm_num

/-- With `theta = 0` the arc parameter is `pi/2 * i/49`. -/
theorem c7_qq (i : Fin 50) : qq c7cfg i = Real.pi / 2 * (i.val : ℝ) / 49 := by
  unfold qq
  rw [c7_theta]
  ring

/-- Back-conversion in the scenario divides by `100`. -/
theorem c7_outX (v : ℝ) : outX c7cfg v = v / 100 := by
  unfold outX
  have hx : c7cfg.xLog = false := rfl
  rw [hx]
  simp only [Bool.false_eq_true, if_false]
  rw [c7_xscale]
  show v / 100 + 0 = v / 100
  ring

/-- Back-conversion in the scenario divides by `100` (y axis). -/
theorem c7_outY (v : ℝ) : outY c7cfg v = v / 100 := by
  unfold outY
  have hy : c7cfg.yLog = false := rfl
  rw [hy]
  simp only [Bool.false_eq_true, if_false]
  rw [c7_yscale]
  show v / 100 + 0 = v / 100
  ring

/-- The last arc2 sample of the scenario, x coordinate. -/
theorem c7_arc2x49 : arc2x c7cfg 49 = 1 / 2 := by
  unfold arc2x arc2xPix
  rw [c7_outX, c7_rr, c7_x22, c7_qq]
  have hv : (((49 : Fin 50).val : ℕ) : ℝ) = 49 := by
    norm_num [show ((49 : Fin 50).val) = 49 from rfl]
  rw [hv, show Real.pi / 2 * 49 / 49 - Real.pi / 2 = 0 by ring, Real.cos_zero]
  norm_num

/-- The last arc2 sample of the scenario, y coordinate. -/
theorem c7_arc2y49 : arc2y c7cfg 49 = 1 / 5 := by
  unfold arc2y arc2yPix
  rw [c7_outY, c7_rr, c7_y22, c7_qq]
  have hv : (((49 : Fin 50).val : ℕ) : ℝ) = 49 := by
    norm_num [show ((49 : Fin 50).val) = 49 from rfl]
  rw [hv, show Real.pi / 2 * 49 / 49 - Real.pi / 2 = 0 by ring, Real.sin_zero]
  norm_num

/-- The second arc2 sample of the scenario, x coordinate. -/
theorem c7_arc2x1 : arc2x c7cfg 1 = 2 / 5 + Real.sin (Real.pi / 98) / 10 := by
  unfold arc2x arc2xPix
  rw [c7_outX, c7_rr, c7_x22, c7_qq]
  have hv : (((1 : Fin 50).val : ℕ) : ℝ) = 1 := by
    norm_num [show ((1 : Fin 50).val) = 1 from rfl]
  rw [hv, show Real.pi / 2 * 1 / 49 - Real.pi / 2 = Real.pi / 98 - Real.pi / 2 by ring,
    Real.cos_sub_pi_div_two]
  ring

/-- The second arc2 sample of the scenario, y coordinate. -/
theorem c7_arc2y1 : arc2y c7cfg 1 = 1 / 5 - Real.cos (Real.pi / 98) / 10 := by
  unfold arc2y arc2yPix
  rw [c7_outY, c7_rr, c7_y22, c7_qq]
  have hv : (((1 : Fin 50).val : ℕ) : ℝ) = 1 := by
    norm_num [show ((1 : Fin 50).val) = 1 from rfl]
  rw [hv, show Real.pi / 2 * 1 / 49 - Real.pi / 2 = Real.pi / 98 - Real.pi / 2 by ring,
    Real.sin_sub_pi_div_two]
  ring

/-- The first arc2 sample of the scenario, x coordinate. -/
theorem c7_arc2x0 : arc2x c7cfg 0 = 2 / 5 := by
  unfold arc2x arc2xPix
  rw [c7_outX, c7_rr, c7_x22, c7_qq]
  have hv : (((0 : Fin 50).val : ℕ) : ℝ) = 0 := by
    norm_num [show ((0 : Fin 50).val) = 0 from rfl]
  rw [hv, show Real.pi / 2 * 0 / 49 - Real.pi / 2 = -(Real.pi / 2) by ring,
    Real.cos_neg, Real.cos_pi_div_two]
  norm_num

/-- The first arc2 sample of the scenario, y coordinate. -/
theorem c7_arc2y0 : arc2y c7cfg 0 = 1 / 10 := by
  unfold arc2y arc2yPix
  rw [c7_outY, c7_rr, c7_y22, c7_qq]
  have hv : (((0 : Fin 50).val : ℕ) : ℝ) = 0 := by
    norm_num [show ((0 : Fin 50).val) = 0 from rfl]
  rw [hv, show Real.pi / 2 * 0 / 49 - Real.pi / 2 = -(Real.pi / 2) by ring,
    Real.sin_neg, Real.sin_pi_div_two]
  norm_num

/-! ## C7 — summit of the §8 scenario -/

/-- C7: for the scenario `p1 = (0,0)`, `p2 = (1,0)`, linear axes, viewport
`[0,1] × [0,1]` at `100 × 100` pixels and curvature `0.1`, the call
succeeds, the summit is exactly `(1/2, 1/5)` — i.e. perpendicular to the
`p1 → p2` segment above its midpoint `(1/2, 0)` and displaced by `0.2` —
and the summit is the last point (junction) of arc2. -/
theorem claim_C7 :
    add_curly_brace c7cfg = .ok (braceOut c7cfg) ∧
    summit c7cfg = (1 / 2, 1 / 5) ∧
    summit c7cfg = (arc2x c7cfg 49, arc2y c7cfg 49) ∧
    (summit c7cfg).1 = (c7cfg.p1x + c7cfg.p2x) / 2 := by
  have hok : add_curly_brace c7cfg = .ok (braceOut c7cfg) := rfl
  refine ⟨hok, ?_, rfl, ?_⟩
  · unfold summit
    rw [c7_arc2x49, c7_arc2y49]
  · show arc2x c7cfg 49 = (c7cfg.p1x + c7cfg.p2x) / 2
    rw [c7_arc2x49]
    show (1:ℝ) / 2 = ((0:ℝ) + 1) / 2
    norm_num

/-! ## C4 — path continuity -/

/-- C4 (amended): the junctions arc1 → segment1, arc2 → arc3 and
arc3 → segment2 coincide exactly, and the straight segments end at the
SECOND sample (index 1) of arc2 resp. arc4 — not at their first sample, so
the seg1 → arc2 and seg2 → arc4 junctions, as claimed, have a genuine gap
(see the counterexample); the segment endpoints do lie on the arcs. -/
theorem claim_C4 (c : Cfg) :
    seg1Start c = (arc1x c 49, arc1y c 49) ∧
    seg1End c = (arc2x c 1, arc2y c 1) ∧
    (arc2x c 49, arc2y c 49) = (arc3x c 0, arc3y c 0) ∧
    seg2Start c = (arc3x c 49, arc3y c 49) ∧
    seg2End c = (arc4x c 1, arc4y c 1) := by
  have h49 : qq c 49 - Real.pi / 2 = theta c := by
    unfold qq
    have hv : (((49 : Fin 50).val : ℕ) : ℝ) = 49 := by
      norm_num [show ((49 : Fin 50).val) = 49 from rfl]
    rw [hv]
    ring
  have h0 : qq c 0 = theta c := by
    unfold qq
    have hv : (((0 : Fin 50).val : ℕ) : ℝ) = 0 := by
      norm_num [show ((0 : Fin 50).val) = 0 from rfl]
    rw [hv]
    ring
  have hx : arc2xPix c 49 = arc3xPix c 0 := by
    unfold arc2xPix arc3xPix x22 x33
    rw [h49, h0, Real.cos_add_pi]
    ring
  have hy : arc2yPix c 49 = arc3yPix c 0 := by
    unfold arc2yPix arc3yPix y22 y33
    rw [h49, h0, Real.sin_add_pi]
    ring
  refine ⟨rfl, rfl, ?_, rfl, rfl⟩
  simp only [Prod.mk.injEq]
  constructor
  · show outX c (arc2xPix c 49) = outX c (arc3xPix c 0)
    rw [hx]
  · show outY c (arc2yPix c 49) = outY c (arc3yPix c 0)
    rw [hy]

/-- Counterexample to C4 as stated: in the §8 scenario, the first straight
segment's endpoint (the second sample of arc2) and arc2's start point are
more than `10⁻³` apart in data units (squared distance `> 10⁻⁶` —
`(1 - cos (pi/98)) / 50 ≈ 1.03·10⁻⁵`), far beyond floating-point
tolerance. -/
theorem claim_C4_counterexample :
    ((seg1End c7cfg).1 - arc2x c7cfg 0) ^ 2 +
      ((seg1End c7cfg).2 - arc2y c7cfg 0) ^ 2 > 1 / 1000000 := by
  have hx1 : (seg1End c7cfg).1 = 2 / 5 + Real.sin (Real.pi / 98) / 10 := c7_arc2x1
  have hy1 : (seg1End c7cfg).2 = 1 / 5 - Real.cos (Real.pi / 98) / 10 := c7_arc2y1
  rw [hx1, hy1, c7_arc2x0, c7_arc2y0]
  have hsk : Real.sin (Real.pi / 98) ^ 2 + Real.cos (Real.pi / 98) ^ 2 = 1 :=
    Real.sin_sq_add_cos_sq _
  have hgoal :
      (2 / 5 + Real.sin (Real.pi / 98) / 10 - 2 / 5) ^ 2 +
        (1 / 5 - Real.cos (Real.pi / 98) / 10 - 1 / 10) ^ 2 =
        (1 - Real.cos (Real.pi / 98)) / 50 := by
    linear_combination hsk / 100
  rw [hgoal]
  have hhalf : 1 - Real.cos (Real.pi / 98) = 2 * Real.sin (Real.pi / 196) ^ 2 := by
    have hc : Real.cos (Real.pi / 196) ^ 2 = 1 / 2 + Real.cos (2 * (Real.pi / 196)) / 2 :=
      Real.cos_sq _
    have hs2 : Real.sin (Real.pi / 196) ^ 2 = 1 - Real.cos (Real.pi / 196) ^ 2 :=
      Real.sin_sq _
    rw [show 2 * (Real.pi / 196) = Real.pi / 98 by ring] at hc
    rw [hs2, hc]
    ring
  have hb : (0.016 : ℝ) < Real.sin (Real.pi / 196) := by
    have h1 : (0:ℝ) < Real.pi / 196 := by positivity
    have h2 : Real.pi / 196 ≤ 1 := by linarith [Real.pi_lt_d2]
    have h3 := Real.sin_gt_sub_cube h1 h2
    have h5 : Real.pi / 196 < 0.0161 := by linarith [Real.pi_lt_d2]
    have h6 : (0.01602 : ℝ) ≤ Real.pi / 196 := by linarith [Real.pi_gt_d2]
    have h7 : (Real.pi / 196) ^ 3 ≤ (0.0161 : ℝ) ^ 3 :=
      pow_le_pow_left₀ (le_of_lt h1) (le_of_lt h5) 3
    have h8 : (0.0161 : ℝ) ^ 3 = 0.000004173281 := by norm_num
    linarith
  have ht2 : (0.016 : ℝ) ^ 2 < Real.sin (Real.pi / 196) ^ 2 := by
    nlinarith [hb, sq_nonneg (Real.sin (Real.pi / 196) - 0.016)]
  have hmono : 1 - Real.cos (Real.pi / 98) > 2 * 0.016 ^ 2 := by
    rw [hhalf]
    linarith
  linarith

/-! ## C9 — parameter alignment -/

/-- Every member of a list of naturals is bounded by the `foldr`-maximum. -/
theorem foldr_max_le_mem {l : List ℕ} {a : ℕ} (h : a ∈ l) :
    a ≤ l.foldr Nat.max 0 := by
  induction l with
  | nil => cases h
  | cons x xs ih =>
    rcases List.mem_cons.mp h with rfl | h'
    · exact Nat.le_max_left _ _
    · exact le_trans (ih h') (Nat.le_max_right _ _)

/-- Characterization of `alignValue` on a non-empty value of length at
most the maximum. -/
theorem alignValue_ok {α : Type} [Inhabited α] (M : ℕ) (v : List α)
    (hne : v ≠ []) (hle : v.length ≤ M) :
    ∃ w, alignValue M v = .ok w ∧ w.length = M ∧
      (∀ i < M, w.getD i default = v.getD (i % v.length) default) ∧
      (v.length = M → w = v) := by
  unfold alignValue
  by_cases h : M ≤ v.length
  · have heq : v.length = M := le_antisymm hle h
    rw [if_pos h]
    refine ⟨v, rfl, heq, ?_, fun _ => rfl⟩
    intro i hi
    rw [Nat.mod_eq_of_lt (by omega)]
  · rw [if_neg h]
    have hlen0 : v.length ≠ 0 := by
      intro h0
      exact hne (List.length_eq_zero.mp h0)
    rw [if_neg hlen0]
    refine ⟨_, rfl, by simp, ?_, ?_⟩
    · intro i hi
      rw [List.getD_eq_getElem?_getD, List.getElem?_map, List.getElem?_range hi]
      simp
    · intro hM
      omega

/-- The alignment loop succeeds when each value's alignment succeeds, and
relates inputs to outputs positionally. -/
theorem alignLoop_ok {α : Type} [Inhabited α] (M : ℕ)
    (L : List (String × List α))
    (h : ∀ kv ∈ L, ∃ w, alignValue M kv.2 = .ok w) :
    ∃ res, alignLoop M L = .ok res ∧
      List.Forall₂ (fun (kv : String × List α) (rv : String × List α) =>
        rv.1 = kv.1 ∧ alignValue M kv.2 = .ok rv.2) L res := by
  induction L with
  | nil => exact ⟨[], rfl, List.Forall₂.nil⟩
  | cons kv rest ih =>
    obtain ⟨w, hw⟩ := h kv (List.mem_cons_self _ _)
    obtain ⟨res, hres, hfa⟩ := ih fun x hx => h x (List.mem_cons_of_mem _ hx)
    refine ⟨(kv.1, w) :: res, ?_, List.Forall₂.cons ⟨rfl, hw⟩ hfa⟩
    simp only [alignLoop]
    rw [hw, hres]

/-- A membership-aware variant of `List.Forall₂.imp`. -/
theorem forall₂_imp_of_mem {α β : Type} {R S : α → β → Prop} :
    ∀ {l₁ : List α} {l₂ : List β}, (∀ a ∈ l₁, ∀ b, R a b → S a b) →
      List.Forall₂ R l₁ l₂ → List.Forall₂ S l₁ l₂ := by
  intro l₁ l₂ h hfa
  induction hfa with
  | nil => exact List.Forall₂.nil
  | cons hr _ ih =>
    refine List.Forall₂.cons (h _ (List.mem_cons_self _ _) _ hr) ?_
    exact ih fun a ha b hb => h a (List.mem_cons_of_mem _ ha) b hb

/-- C9 (amended): for every non-empty parameter dictionary all of whose
values are non-empty after listification (a string or non-sequence counts
as one element), `_align_params` succeeds; the returned integer is the
maximal element count, every output value is a list of exactly that
length, element `i` of each output is input element `i mod input-length`,
and inputs already of maximal length are returned unchanged.  (If some
value listifies to an empty sequence while another is longer, the helper
instead raises `ZeroDivisionError` from Python's `i % 0` — see the
counterexample.) -/
theorem claim_C9 {α : Type} [Inhabited α] (params : List (String × PVal α))
    (hne : params ≠ [])
    (hval : ∀ kv ∈ params, _to_list kv.2 ≠ []) :
    maxLenOf params = (params.map fun kv => (_to_list kv.2).length).foldr Nat.max 0 ∧
    ∃ res,
      _align_params params = .ok (res, maxLenOf params) ∧
      List.Forall₂ (fun (kv : String × PVal α) (rv : String × List α) =>
        rv.1 = kv.1 ∧ rv.2.length = maxLenOf params ∧
        (∀ i < maxLenOf params,
          rv.2.getD i default = (_to_list kv.2).getD (i % (_to_list kv.2).length) default) ∧
        ((_to_list kv.2).length = maxLenOf params → rv.2 = _to_list kv.2))
        params res := by
  constructor
  · simp [maxLenOf, List.map_map]
    rfl
  · have hbound : ∀ kv ∈ params.map fun kv => (kv.1, _to_list kv.2),
        kv.2.length ≤ maxLenOf params := by
      intro kv hkv
      apply foldr_max_le_mem
      exact List.mem_map_of_mem _ hkv
    have hexists : ∀ kv ∈ params.map fun kv => (kv.1, _to_list kv.2),
        ∃ w, alignValue (maxLenOf params) kv.2 = .ok w := by
      intro kv hkv
      obtain ⟨kv0, hkv0, rfl⟩ := List.mem_map.mp hkv
      obtain ⟨w, hw, _⟩ :=
        alignValue_ok (maxLenOf params) (_to_list kv0.2) (hval kv0 hkv0)
          (hbound _ hkv)
      exact ⟨w, hw⟩
    obtain ⟨res, hres, hfa⟩ :=
      alignLoop_ok (maxLenOf params) (params.map fun kv => (kv.1, _to_list kv.2))
        hexists
    refine ⟨res, ?_, ?_⟩
    · obtain ⟨p, ps, rfl⟩ := List.exists_cons_of_ne_nil hne
      show (match alignLoop (maxLenOf (p :: ps))
            ((p :: ps).map fun kv => (kv.1, _to_list kv.2)) with
          | Except.error e => Except.error e
          | Except.ok r => Except.ok (r, maxLenOf (p :: ps))) =
          Except.ok (res, maxLenOf (p :: ps))
      rw [hres]
    · have hfa2 := List.forall₂_map_left_iff.mp hfa
      refine forall₂_imp_of_mem ?_ hfa2
      intro kv hmem rv hrel
      obtain ⟨hkey, hok⟩ := hrel
      obtain ⟨w, hw, hlen, hgd, hunch⟩ :=
        alignValue_ok (maxLenOf params) (_to_list kv.2) (hval kv hmem)
          (hbound _ (List.mem_map_of_mem _ hmem))
      rw [hw] at hok
      have hwr : w = rv.2 := by
        injection hok
      subst hwr
      exact ⟨hkey, hlen, hgd, hunch⟩

/-- Witness for C9: a three-element sequence and a scalar align to length
three, with the scalar repeated cyclically. -/
theorem claim_C9_witness :
    (([("a", PVal.seq [1, 2, 3]), ("b", PVal.single (5:ℕ))] :
        List (String × PVal ℕ)) ≠ []) ∧
    ∃ res, _align_params
        [("a", PVal.seq [1, 2, 3]), ("b", PVal.single (5:ℕ))] = .ok (res, 3) := by
  have h := claim_C9 [("a", PVal.seq [1, 2, 3]), ("b", PVal.single (5:ℕ))]
    (by simp)
    (by
      intro kv hkv
      rcases List.mem_cons.mp hkv with rfl | hkv'
      · decide
      · rcases List.mem_cons.mp hkv' with rfl | hkv''
        · decide
        · cases hkv'')
  obtain ⟨-, res, hok, -⟩ := h
  exact ⟨by simp, ⟨res, hok⟩⟩

/-- Counterexample to C9 as stated: a dictionary containing an empty
sequence next to a two-element one makes `_align_params` raise
`ZeroDivisionError` (from `value[i % 0]`) instead of returning aligned
lists. -/
theorem claim_C9_counterexample :
    _align_params [("a", PVal.seq ([] : List ℕ)), ("b", PVal.seq [1, 2])] =
      .error PyErr.zeroDivisionError := rfl


/-! ## C10 — marker-line length check -/

/-- `_set_mode` succeeds on every valid mode. -/
theorem set_mode_ok (x y : List ℝ) (m : String) (i n : ℕ) (hm : validMode m) :
    ∃ p, _set_mode x y m i n = .ok p := by
  rcases hm with h | h | h <;> subst h
  · exact ⟨_, rfl⟩
  · exact ⟨_, rfl⟩
  · exact ⟨_, rfl⟩

/-- A drawing phase over a valid mode raises no exception. -/
theorem phaseGo_none (xl yl : List ℝ) (m : String) (n : ℕ) (hm : validMode m)
    (l : List ℕ) : (phaseGo xl yl m n l).2 = none := by
  induction l with
  | nil => rfl
  | cons i rest ih =>
    obtain ⟨p, hp⟩ := set_mode_ok xl yl m i n hm
    simp only [phaseGo]
    rw [hp]
    exact ih

/-- A full drawing phase over a valid mode raises no exception. -/
theorem runPhase_none (xl yl : List ℝ) (m : String) (n : ℕ) (hm : validMode m) :
    (runPhase xl yl m n).2 = none :=
  phaseGo_none xl yl m n hm (List.range n)

/-- `buildLine` succeeds on non-empty inputs. -/
theorem buildLine_ok (xs ys : List ℝ) (ld : ℝ) (hne : xs ≠ []) :
    ∃ xy, buildLine xs ys ld = .ok xy := by
  unfold buildLine
  by_cases h2 : xs.length = 2 ∧ ys.length = 2
  · rw [if_pos h2]
    exact ⟨_, rfl⟩
  · rw [if_neg h2, if_neg (by
      intro h0
      exact hne (List.length_eq_zero.mp h0))]
    exact ⟨_, rfl⟩

/-- `_align_params` succeeds when every listified value is non-empty. -/
theorem align_params_ok {α : Type} [Inhabited α]
    (params : List (String × PVal α))
    (hval : ∀ kv ∈ params, _to_list kv.2 ≠ []) :
    ∃ res, _align_params params = .ok res := by
  cases params with
  | nil => exact ⟨([], 1), rfl⟩
  | cons p ps =>
    have hbound : ∀ kv ∈ (p :: ps).map fun kv => (kv.1, _to_list kv.2),
        kv.2.length ≤ maxLenOf (p :: ps) :=
      fun kv hkv => foldr_max_le_mem (List.mem_map_of_mem _ hkv)
    have hexists : ∀ kv ∈ (p :: ps).map fun kv => (kv.1, _to_list kv.2),
        ∃ w, alignValue (maxLenOf (p :: ps)) kv.2 = .ok w := by
      intro kv hkv
      obtain ⟨kv0, hkv0, rfl⟩ := List.mem_map.mp hkv
      obtain ⟨w, hw, -⟩ :=
        alignValue_ok (maxLenOf (p :: ps)) (_to_list kv0.2) (hval kv0 hkv0)
          (hbound _ hkv)
      exact ⟨w, hw⟩
    obtain ⟨res, hres, -⟩ :=
      alignLoop_ok (maxLenOf (p :: ps))
        ((p :: ps).map fun kv => (kv.1, _to_list kv.2)) hexists
    refine ⟨(res, maxLenOf (p :: ps)), ?_⟩
    show (match alignLoop (maxLenOf (p :: ps))
          ((p :: ps).map fun kv => (kv.1, _to_list kv.2)) with
        | Except.error e => Except.error e
        | Except.ok r => Except.ok (r, maxLenOf (p :: ps))) =
        Except.ok (res, maxLenOf (p :: ps))
    rw [hres]

/-- C10 (amended): if the coordinate sequences have different lengths,
`add_marker_line` raises `ValueError` before any line or marker is drawn;
with equal lengths, non-empty input, valid line/point modes and non-empty
style parameters, no exception is raised at all.  The converse of the
claim fails: an invalid mode also raises `ValueError` with equal-length
inputs — see the counterexample. -/
theorem claim_C10 (a : MLArgs) :
    (a.xs.length ≠ a.ys.length → add_marker_line a = ([], some PyErr.valueError)) ∧
    (a.xs.length = a.ys.length → a.xs ≠ [] →
      validMode a.lineMode → validMode a.pointMode →
      (∀ kv ∈ lineParams a, _to_list kv.2 ≠ []) →
      (∀ kv ∈ pointParams a, _to_list kv.2 ≠ []) →
      (add_marker_line a).2 = none) := by
  constructor
  · intro h
    unfold add_marker_line
    rw [if_pos h]
  · intro hlen hne hlm hpm hlp hpp
    unfold add_marker_line
    rw [if_neg (not_not_intro hlen)]
    obtain ⟨xy, hxy⟩ := buildLine_ok a.xs a.ys a.lineDensity hne
    rw [hxy]
    show (linePhase a xy).2 = none
    obtain ⟨rn, hrn⟩ := align_params_ok (lineParams a) hlp
    simp only [linePhase]
    rw [hrn]
    show (match (runPhase xy.1 xy.2 a.lineMode rn.2).2 with
        | some e => ((runPhase xy.1 xy.2 a.lineMode rn.2).1, some e)
        | none => pointPhase a (runPhase xy.1 xy.2 a.lineMode rn.2).1).2 = none
    rw [runPhase_none xy.1 xy.2 a.lineMode rn.2 hlm]
    show (pointPhase a (runPhase xy.1 xy.2 a.lineMode rn.2).1).2 = none
    obtain ⟨rm, hrm⟩ := align_params_ok (pointParams a) hpp
    simp only [pointPhase]
    rw [hrm]
    exact runPhase_none a.xs a.ys a.pointMode rm.2 hpm

/-- Witness for C10: a mismatched call raises `ValueError` with nothing
drawn, and a well-formed call raises nothing. -/
theorem claim_C10_witness :
    add_marker_line mlMismatch = ([], some PyErr.valueError) ∧
    (add_marker_line mlBase).2 = none := by
  constructor
  · exact (claim_C10 mlMismatch).1 (by
      show (2:ℕ) ≠ 1
      norm_num)
  · exact (claim_C10 mlBase).2 rfl
      (List.cons_ne_nil 0 [1])
      (Or.inl rfl) (Or.inl rfl)
      (by
        intro kv hkv
        simp only [lineParams, List.mem_cons, List.not_mem_nil, or_false] at hkv
        rcases hkv with rfl | rfl | rfl | rfl | rfl | rfl | rfl | rfl | rfl <;>
          exact List.cons_ne_nil _ _)
      (by
        intro kv hkv
        simp only [pointParams, List.mem_cons, List.not_mem_nil, or_false] at hkv
        rcases hkv with rfl | rfl | rfl | rfl | rfl | rfl | rfl | rfl | rfl <;>
          exact List.cons_ne_nil _ _)

/-- Counterexample to C10 as stated: with equal-length inputs but the
invalid mode `"group"`, `add_marker_line` raises `ValueError` (from
`_set_mode`, line 353) — so a `ValueError` does not imply mismatched
coordinate lengths. -/
theorem claim_C10_counterexample :
    mlBadMode.xs.length = mlBadMode.ys.length ∧
    add_marker_line mlBadMode = ([], some PyErr.valueError) :=
  ⟨rfl, rfl⟩

/-! ## C5 — log-x scenario output range -/

/-- C5 (amended): for `p1 = (1,0)`, `p2 = (100,0)` on a logarithmic x axis
over any non-degenerate viewport containing them, both endpoint
x-coordinates are transformed via `ln`, the call succeeds, and every
output arc x-coordinate lies within `[1, 100]` — EXCEPT the very first
point of arc1 (the image of `p1` itself), whose x-coordinate is exactly
`0`: its transformed value is `ln 1 = 0`, which the output conversion maps
to `0` instead of `1` (see the counterexample). -/
theorem claim_C5 (w h xl0 xl1 yl0 yl1 : ℝ) (hw : 0 < w) (_hh : 0 < h)
    (hx0 : 0 < xl0) (hx0' : xl0 ≤ 1) (hx1 : 100 ≤ xl1) (_hy : yl0 < yl1) :
    txv (c5cfg w h xl0 xl1 yl0 yl1) 1 = Real.log 1 ∧
    txv (c5cfg w h xl0 xl1 yl0 yl1) 100 = Real.log 100 ∧
    add_curly_brace (c5cfg w h xl0 xl1 yl0 yl1) =
      .ok (braceOut (c5cfg w h xl0 xl1 yl0 yl1)) ∧
    (∀ i : Fin 50,
      arc2x (c5cfg w h xl0 xl1 yl0 yl1) i ∈ Set.Icc (1:ℝ) 100 ∧
      arc3x (c5cfg w h xl0 xl1 yl0 yl1) i ∈ Set.Icc (1:ℝ) 100 ∧
      arc4x (c5cfg w h xl0 xl1 yl0 yl1) i ∈ Set.Icc (1:ℝ) 100 ∧
      (i ≠ 0 → arc1x (c5cfg w h xl0 xl1 yl0 yl1) i ∈ Set.Icc (1:ℝ) 100)) ∧
    arc1x (c5cfg w h xl0 xl1 yl0 yl1) 0 = 0 := by
  set c := c5cfg w h xl0 xl1 yl0 yl1 with hc
  have hxlog : c.xLog = true := rfl
  have hauto : c.boolAuto = true := rfl
  have hL : 0 < Real.log 100 := Real.log_pos (by norm_num)
  have htx1 : txv c 1 = Real.log 1 := by
    unfold txv
    rw [if_pos hxlog]
    unfold sgnLog
    rw [if_pos (by norm_num : (0:ℝ) < 1)]
  have htx100 : txv c 100 = Real.log 100 := by
    unfold txv
    rw [if_pos hxlog]
    unfold sgnLog
    rw [if_pos (by norm_num : (0:ℝ) < 100)]
  have hl0e : xlim0T c = Real.log xl0 := by
    show txv c c.xlim0 = Real.log xl0
    unfold txv
    rw [if_pos hxlog]
    show sgnLog xl0 = Real.log xl0
    unfold sgnLog
    rw [if_pos hx0]
  have hl1e : xlim1T c = Real.log xl1 := by
    show txv c c.xlim1 = Real.log xl1
    unfold txv
    rw [if_pos hxlog]
    show sgnLog xl1 = Real.log xl1
    unfold sgnLog
    rw [if_pos (by linarith : (0:ℝ) < xl1)]
  have hl0np : Real.log xl0 ≤ 0 := Real.log_nonpos (le_of_lt hx0) hx0'
  have hl1ge : Real.log 100 ≤ Real.log xl1 := Real.log_le_log (by norm_num) hx1
  have hD : 0 < Real.log xl1 - Real.log xl0 := by linarith
  have hse : xscale c = w / (Real.log xl1 - Real.log xl0) := by
    unfold xscale
    rw [if_pos hauto, hl1e, hl0e, abs_of_pos hD]
    rfl
  have hs : 0 < xscale c := by
    rw [hse]
    exact div_pos hw hD
  have hp1T : txv c c.p1x = 0 := by
    show txv c 1 = 0
    rw [htx1, Real.log_one]
  have hp2T : txv c c.p2x = Real.log 100 := by
    show txv c 100 = Real.log 100
    rw [htx100]
  have hpt1e : pt1x c = (0 - Real.log xl0) * xscale c := by
    unfold pt1x
    rw [hp1T, hl0e]
  have hpt2e : pt2x c = (Real.log 100 - Real.log xl0) * xscale c := by
    unfold pt2x
    rw [hp2T, hl0e]
  have hdy : pt2y c - pt1y c = 0 := by
    have he : pt2y c = pt1y c := rfl
    rw [he, sub_self]
  have hdx : pt2x c - pt1x c = Real.log 100 * xscale c := by
    rw [hpt2e, hpt1e]
    ring
  have hdxpos : 0 < Real.log 100 * xscale c := mul_pos hL hs
  have hth : theta c = 0 := by
    unfold theta
    rw [hdy, hdx]
    exact arctan2_zero_pos _ hdxpos
  have hrr : rr c = Real.log 100 * xscale c / 10 := by
    unfold rr
    rw [hdx, hdy,
      show (Real.log 100 * xscale c) ^ 2 + (0:ℝ) ^ 2 =
        (Real.log 100 * xscale c) ^ 2 by ring,
      Real.sqrt_sq (le_of_lt hdxpos)]
    show Real.log 100 * xscale c * (1 / 10) = Real.log 100 * xscale c / 10
    ring
  have hqq : ∀ i : Fin 50, qq c i = Real.pi / 2 * (i.val : ℝ) / 49 := by
    intro i
    unfold qq
    rw [hth]
    ring
  have hqb : ∀ i : Fin 50, 0 ≤ qq c i ∧ qq c i ≤ Real.pi / 2 := by
    intro i
    rw [hqq i]
    have hiv0 : (0:ℝ) ≤ (i.val : ℝ) := Nat.cast_nonneg _
    have hiv : (i.val : ℝ) ≤ 49 := by
      have h49 := Nat.le_of_lt_succ i.isLt
      exact_mod_cast h49
    constructor
    · positivity
    · nlinarith [Real.pi_pos]
  have htb : ∀ i : Fin 50, 0 ≤ tt c i ∧ tt c i ≤ Real.pi / 2 := by
    intro i
    unfold tt
    exact hqb _
  have hsinq : ∀ i : Fin 50, 0 ≤ Real.sin (qq c i) ∧ Real.sin (qq c i) ≤ 1 := by
    intro i
    obtain ⟨h0q, h1q⟩ := hqb i
    exact ⟨Real.sin_nonneg_of_nonneg_of_le_pi h0q (by linarith [Real.pi_pos]),
      Real.sin_le_one _⟩
  have hsint : ∀ i : Fin 50, 0 ≤ Real.sin (tt c i) ∧ Real.sin (tt c i) ≤ 1 := by
    intro i
    obtain ⟨h0t, h1t⟩ := htb i
    exact ⟨Real.sin_nonneg_of_nonneg_of_le_pi h0t (by linarith [Real.pi_pos]),
      Real.sin_le_one _⟩
  have hcosq : ∀ i : Fin 50, 0 ≤ Real.cos (qq c i) ∧ Real.cos (qq c i) ≤ 1 := by
    intro i
    obtain ⟨h0q, h1q⟩ := hqb i
    exact ⟨Real.cos_nonneg_of_mem_Icc ⟨by linarith [Real.pi_pos], h1q⟩,
      Real.cos_le_one _⟩
  have hcost : ∀ i : Fin 50, 0 ≤ Real.cos (tt c i) ∧ Real.cos (tt c i) ≤ 1 := by
    intro i
    obtain ⟨h0t, h1t⟩ := htb i
    exact ⟨Real.cos_nonneg_of_mem_Icc ⟨by linarith [Real.pi_pos], h1t⟩,
      Real.cos_le_one _⟩
  have hmemIcc : ∀ u : ℝ, 0 < u → u ≤ Real.log 100 →
      sgnExp u ∈ Set.Icc (1:ℝ) 100 := by
    intro u hu huL
    unfold sgnExp
    rw [if_pos hu, Set.mem_Icc]
    constructor
    · have h1 : (1:ℝ) < Real.exp u := by
        rw [← Real.exp_zero]
        exact Real.exp_lt_exp.mpr hu
      linarith
    · calc Real.exp u ≤ Real.exp (Real.log 100) := Real.exp_le_exp.mpr huL
        _ = 100 := Real.exp_log (by norm_num)
  have houtX2 : ∀ a : ℝ, outX c ((a - Real.log xl0) * xscale c) = sgnExp a := by
    intro a
    unfold outX
    rw [if_pos hxlog, hl0e, mul_div_assoc, div_self (ne_of_gt hs), mul_one,
      sub_add_cancel]
  have hP1 : ∀ i : Fin 50, arc1xPix c i =
      (Real.log 100 / 10 * (1 - Real.sin (tt c i)) - Real.log xl0) * xscale c := by
    intro i
    unfold arc1xPix x11
    rw [hth, Real.cos_add_pi_div_two, Real.cos_zero, hpt1e, hrr]
    ring
  have hP2 : ∀ i : Fin 50, arc2xPix c i =
      (Real.log 100 / 2 - Real.log 100 / 10 + Real.log 100 / 10 * Real.sin (qq c i)
        - Real.log xl0) * xscale c := by
    intro i
    unfold arc2xPix x22
    rw [hth, Real.cos_sub_pi_div_two, Real.sin_zero, Real.cos_zero, hpt1e, hpt2e, hrr]
    ring
  have hP3 : ∀ i : Fin 50, arc3xPix c i =
      (Real.log 100 / 2 + Real.log 100 / 10 - Real.log 100 / 10 * Real.cos (qq c i)
        - Real.log xl0) * xscale c := by
    intro i
    unfold arc3xPix x33
    rw [hth, Real.cos_add_pi, Real.sin_zero, Real.cos_zero, hpt1e, hpt2e, hrr]
    ring
  have hP4 : ∀ i : Fin 50, arc4xPix c i =
      (Real.log 100 - Real.log 100 / 10 + Real.log 100 / 10 * Real.cos (tt c i)
        - Real.log xl0) * xscale c := by
    intro i
    unfold arc4xPix x44
    rw [hth, Real.cos_zero, hpt2e, hrr]
    ring
  have hok : add_curly_brace c = .ok (braceOut c) := rfl
  refine ⟨htx1, htx100, hok, ?_, ?_⟩
  · intro i
    refine ⟨?_, ?_, ?_, ?_⟩
    · show outX c (arc2xPix c i) ∈ Set.Icc (1:ℝ) 100
      rw [hP2 i, houtX2]
      obtain ⟨ha, hb⟩ := hsinq i
      have hnn : 0 ≤ Real.log 100 / 10 * Real.sin (qq c i) :=
        mul_nonneg (by linarith) ha
      have hub : Real.log 100 / 10 * Real.sin (qq c i) ≤ Real.log 100 / 10 * 1 :=
        mul_le_mul_of_nonneg_left hb (by linarith)
      exact hmemIcc _ (by linarith) (by linarith)
    · show outX c (arc3xPix c i) ∈ Set.Icc (1:ℝ) 100
      rw [hP3 i, houtX2]
      obtain ⟨ha, hb⟩ := hcosq i
      have hnn : 0 ≤ Real.log 100 / 10 * Real.cos (qq c i) :=
        mul_nonneg (by linarith) ha
      have hub : Real.log 100 / 10 * Real.cos (qq c i) ≤ Real.log 100 / 10 * 1 :=
        mul_le_mul_of_nonneg_left hb (by linarith)
      exact hmemIcc _ (by linarith) (by linarith)
    · show outX c (arc4xPix c i) ∈ Set.Icc (1:ℝ) 100
      rw [hP4 i, houtX2]
      obtain ⟨ha, hb⟩ := hcost i
      have hnn : 0 ≤ Real.log 100 / 10 * Real.cos (tt c i) :=
        mul_nonneg (by linarith) ha
      have hub : Real.log 100 / 10 * Real.cos (tt c i) ≤ Real.log 100 / 10 * 1 :=
        mul_le_mul_of_nonneg_left hb (by linarith)
      exact hmemIcc _ (by linarith) (by linarith)
    · intro hi0
      show outX c (arc1xPix c i) ∈ Set.Icc (1:ℝ) 100
      rw [hP1 i, houtX2]
      have hvne : i.val ≠ 0 := fun hv => hi0 (Fin.ext hv)
      have htlt : tt c i < Real.pi / 2 := by
        show qq c ⟨49 - i.val, by omega⟩ < Real.pi / 2
        rw [hqq]
        have h48n : (49 - i.val : ℕ) ≤ 48 := by omega
        have h48 : (((⟨49 - i.val, by omega⟩ : Fin 50).val : ℕ) : ℝ) ≤ 48 := by
          exact_mod_cast h48n
        have h0c : (0:ℝ) ≤ (((⟨49 - i.val, by omega⟩ : Fin 50).val : ℕ) : ℝ) :=
          Nat.cast_nonneg _
        nlinarith [Real.pi_pos]
      have hlt : Real.sin (tt c i) < 1 := by
        obtain ⟨ht0, ht1⟩ := htb i
        have hm1 : tt c i ∈ Set.Icc (-(Real.pi/2)) (Real.pi/2) :=
          ⟨by linarith [Real.pi_pos], ht1⟩
        have hm2 : Real.pi/2 ∈ Set.Icc (-(Real.pi/2)) (Real.pi/2) :=
          ⟨by linarith [Real.pi_pos], le_refl _⟩
        have hmono := Real.strictMonoOn_sin hm1 hm2 htlt
        rwa [Real.sin_pi_div_two] at hmono
      have hs0 : 0 ≤ Real.sin (tt c i) := (hsint i).1
      refine hmemIcc _ ?_ ?_
      · exact mul_pos (by linarith) (by linarith)
      · have hub : Real.log 100 / 10 * (1 - Real.sin (tt c i)) ≤
            Real.log 100 / 10 * 1 :=
          mul_le_mul_of_nonneg_left (by linarith) (by linarith)
        linarith
  · show outX c (arc1xPix c 0) = 0
    rw [hP1 0, houtX2]
    have ht0 : tt c 0 = Real.pi / 2 := by
      show qq c ⟨49 - (0 : Fin 50).val, by omega⟩ = Real.pi / 2
      rw [hqq]
      have hv : (((⟨49 - (0 : Fin 50).val, by omega⟩ : Fin 50).val : ℕ) : ℝ) = 49 := by
        norm_num [show (49 - (0 : Fin 50).val : ℕ) = 49 from rfl]
      rw [hv]
      ring
    rw [ht0, Real.sin_pi_div_two,
      show Real.log 100 / 10 * (1 - 1) = 0 by ring]
    unfold sgnExp
    norm_num

/-- Witness for C5 with viewport `[1/2, 200] × [0, 1]` at `100 × 100`
pixels. -/
theorem claim_C5_witness :
    txv (c5cfg 100 100 (1/2) 200 0 1) 1 = Real.log 1 ∧
    arc2x (c5cfg 100 100 (1/2) 200 0 1) 0 ∈ Set.Icc (1:ℝ) 100 ∧
    arc1x (c5cfg 100 100 (1/2) 200 0 1) 0 = 0 := by
  have h := claim_C5 100 100 (1/2) 200 0 1 (by norm_num) (by norm_num)
    (by norm_num) (by norm_num) (by norm_num) (by norm_num)
  exact ⟨h.1, (h.2.2.2.1 0).1, h.2.2.2.2⟩

/-- Counterexample to C5 as stated: with viewport `[1, 100] × [0, 1]` at
`100 × 100` pixels, the first output point of arc1 has x-coordinate `0`,
which is NOT within `[1, 100]` — the signed-exp conversion maps the
transformed endpoint value `ln 1 = 0` to `0`, not back to `1`. -/
theorem claim_C5_counterexample :
    arc1x (c5cfg 100 100 1 100 0 1) 0 = 0 ∧
    arc1x (c5cfg 100 100 1 100 0 1) 0 ∉ Set.Icc (1:ℝ) 100 := by
  have hxlog : (c5cfg 100 100 1 100 0 1).xLog = true := rfl
  have hauto : (c5cfg 100 100 1 100 0 1).boolAuto = true := rfl
  have hL : 0 < Real.log 100 := Real.log_pos (by norm_num)
  have hl0e : xlim0T (c5cfg 100 100 1 100 0 1) = 0 := by
    show txv (c5cfg 100 100 1 100 0 1) 1 = 0
    unfold txv
    rw [if_pos hxlog]
    unfold sgnLog
    rw [if_pos (by norm_num : (0:ℝ) < 1), Real.log_one]
  have hl1e : xlim1T (c5cfg 100 100 1 100 0 1) = Real.log 100 := by
    show txv (c5cfg 100 100 1 100 0 1) 100 = Real.log 100
    unfold txv
    rw [if_pos hxlog]
    unfold sgnLog
    rw [if_pos (by norm_num : (0:ℝ) < 100)]
  have hse : xscale (c5cfg 100 100 1 100 0 1) = 100 / Real.log 100 := by
    unfold xscale
    rw [if_pos hauto, hl1e, hl0e, sub_zero, abs_of_pos hL]
    rfl
  have hs : 0 < xscale (c5cfg 100 100 1 100 0 1) := by
    rw [hse]
    positivity
  have hp1T : txv (c5cfg 100 100 1 100 0 1) (c5cfg 100 100 1 100 0 1).p1x = 0 := by
    show txv (c5cfg 100 100 1 100 0 1) 1 = 0
    unfold txv
    rw [if_pos hxlog]
    unfold sgnLog
    rw [if_pos (by norm_num : (0:ℝ) < 1), Real.log_one]
  have hp2T : txv (c5cfg 100 100 1 100 0 1) (c5cfg 100 100 1 100 0 1).p2x =
      Real.log 100 := by
    show txv (c5cfg 100 100 1 100 0 1) 100 = Real.log 100
    unfold txv
    rw [if_pos hxlog]
    unfold sgnLog
    rw [if_pos (by norm_num : (0:ℝ) < 100)]
  have hpt1 : pt1x (c5cfg 100 100 1 100 0 1) = 0 := by
    unfold pt1x
    rw [hp1T, hl0e]
    ring
  have hpt2 : pt2x (c5cfg 100 100 1 100 0 1) = 100 := by
    unfold pt2x
    rw [hp2T, hl0e, hse, sub_zero]
    field_simp
  have hdy : pt2y (c5cfg 100 100 1 100 0 1) - pt1y (c5cfg 100 100 1 100 0 1) = 0 := by
    have he : pt2y (c5cfg 100 100 1 100 0 1) = pt1y (c5cfg 100 100 1 100 0 1) := rfl
    rw [he, sub_self]
  have hth : theta (c5cfg 100 100 1 100 0 1) = 0 := by
    unfold theta
    rw [hdy, hpt2, hpt1, sub_zero]
    exact arctan2_zero_pos 100 (by norm_num)
  have hrr : rr (c5cfg 100 100 1 100 0 1) = 10 := by
    unfold rr
    rw [hdy, hpt2, hpt1, sub_zero,
      show (100:ℝ) ^ 2 + (0:ℝ) ^ 2 = 100 ^ 2 by ring,
      Real.sqrt_sq (by norm_num : (0:ℝ) ≤ 100)]
    show (100:ℝ) * (1/10) = 10
    norm_num
  have ht0 : tt (c5cfg 100 100 1 100 0 1) 0 = Real.pi / 2 := by
    show qq (c5cfg 100 100 1 100 0 1) ⟨49 - (0 : Fin 50).val, by omega⟩ = Real.pi / 2
    unfold qq
    rw [hth]
    have hv : (((⟨49 - (0 : Fin 50).val, by omega⟩ : Fin 50).val : ℕ) : ℝ) = 49 := by
      norm_num [show (49 - (0 : Fin 50).val : ℕ) = 49 from rfl]
    rw [hv]
    ring
  have hpix : arc1xPix (c5cfg 100 100 1 100 0 1) 0 = 0 := by
    unfold arc1xPix x11
    rw [ht0, hth, Real.cos_zero, hrr, hpt1,
      show Real.pi / 2 + Real.pi / 2 = Real.pi by ring, Real.cos_pi]
    ring
  have harc : arc1x (c5cfg 100 100 1 100 0 1) 0 = 0 := by
    show outX (c5cfg 100 100 1 100 0 1) (arc1xPix (c5cfg 100 100 1 100 0 1) 0) = 0
    rw [hpix]
    unfold outX
    rw [if_pos hxlog, hl0e, zero_div, add_zero]
    unfold sgnExp
    norm_num
  refine ⟨harc, ?_⟩
  rw [harc, Set.mem_Icc]
  norm_num

end QuickPlot
